import Mathlib

/-!
Alerts API of gokiteconnect: request construction.

A shallow embedding of `alerts.go`: the parameter types, the form payload
(`url.Values`) built by `CreateAlert` and `ModifyAlert`, the precondition of
`DeleteAlert`, and the single call each operation makes to the request
executor `doEnvelope`.

Conventions of the embedding.
* A Go `string` that is only passed on (the fields of `AlertParams`, the form
  values, uuids) is a Lean `String`; a Go `string` of the basket, which
  `encoding/json` reads byte by byte, is the list of its bytes (`GoString`),
  valid UTF-8 or not.  A Go `error` is `Option String` (`none` is `nil`,
  `some msg` an error with that message).
* A Go pointer is an `Option` (`none` is `nil`); a Go slice is an
  `Option (List _)` (`none` is the nil slice).
* A Go `int` is an `Int`; no arithmetic is done on it, and where the 64-bit
  range matters it is an explicit hypothesis (`fitsInt`).
* A `float64` is its IEEE 754 binary64 bit pattern.  Text conversion of
  floats belongs to the Go standard library and enters as a parameter.
* `Client.doEnvelope` is not part of `alerts.go`; it enters as a field of
  `Client`, and every operation records the requests it hands to it.
* `fmt.Sprintf("%v", _)` and `json.Marshal` enter `CreateAlert` and
  `ModifyAlert` as the parameter `StdLib`; a model of `encoding/json` for
  `Basket` is given separately and used where the content of the basket
  document matters.
-/

namespace Kiteconnect

/-! ## Go base types -/

/-- Go `error`: `none` is `nil`. -/
abbrev GoError := Option String

/-- Go slice: `none` is the nil slice, `some xs` a non-nil slice. -/
abbrev Slice (α : Type) := Option (List α)

/-- A byte. -/
abbrev Byte := Fin 256

/-- A Go `string` whose bytes are inspected: the sequence of its bytes, valid
UTF-8 or not. -/
abbrev GoString := List Byte

/-- A `float64`, given by its IEEE 754 binary64 bit pattern. -/
structure Float64 where
  bits : Nat
  inRange : bits < 2 ^ 64
  deriving DecidableEq

namespace Float64

/-- The eleven exponent bits. -/
def exponentBits (f : Float64) : Nat := (f.bits / 2 ^ 52) % 2 ^ 11

/-- The fifty-two fraction bits. -/
def fractionBits (f : Float64) : Nat := f.bits % 2 ^ 52

/-- Go `math.IsNaN`. -/
def IsNaN (f : Float64) : Bool := f.exponentBits == 2047 && f.fractionBits != 0

/-- Go `math.IsInf(f, 0)`. -/
def IsInf (f : Float64) : Bool := f.exponentBits == 2047 && f.fractionBits == 0

/-- The zero value `+0`. -/
def zero : Float64 := ⟨0, by decide⟩

end Float64

/-! ## `url.Values` -/

/-- Go `url.Values` (`map[string][]string`) as an association list in which
each key occurs at most once. -/
abbrev Values := List (String × List String)

namespace Values

/-- The map index `v[key]` together with its presence flag. -/
def lookup : Values → String → Option (List String)
  | [], _ => none
  | (k, vs) :: rest, key => if k = key then some vs else lookup rest key

/-- Go `Values.Has`. -/
def Has (v : Values) (key : String) : Bool := (lookup v key).isSome

/-- Go `Values.Set`: `v[key] = []string{value}`. -/
def Set : Values → String → String → Values
  | [], key, value => [(key, [value])]
  | (k, vs) :: rest, key, value =>
    if k = key then (k, [value]) :: rest else (k, vs) :: Set rest key value

/-- Go `Values.Add`: `v[key] = append(v[key], value)`. -/
def Add : Values → String → String → Values
  | [], key, value => [(key, [value])]
  | (k, vs) :: rest, key, value =>
    if k = key then (k, vs ++ [value]) :: rest else (k, vs) :: Add rest key value

end Values

/-! ## Constants of `alerts.go` -/

def URIAlerts : String := "/alerts"
def URIAlert : String := "/alerts/%s"
def URIAlertHistory : String := "/alerts/%s/history"

abbrev AlertType := String
def AlertTypeSimple : AlertType := "simple"
def AlertTypeATO : AlertType := "ato"

abbrev AlertStatus := String
def AlertStatusEnabled : AlertStatus := "enabled"
def AlertStatusDisabled : AlertStatus := "disabled"
def AlertStatusDeleted : AlertStatus := "deleted"

abbrev AlertOperator := String
def AlertOperatorLE : AlertOperator := "<="
def AlertOperatorGE : AlertOperator := ">="
def AlertOperatorLT : AlertOperator := "<"
def AlertOperatorGT : AlertOperator := ">"
def AlertOperatorEQ : AlertOperator := "=="

def MethodPost : String := "POST"
def MethodPut : String := "PUT"
def MethodDelete : String := "DELETE"

/-! ## Data model -/

/-- Go `OrderGTTParams`. -/
structure OrderGTTParams where
  Target : Float64
  Stoploss : Float64
  deriving DecidableEq

/-- Go `AlertOrderParams`. -/
structure AlertOrderParams where
  TransactionType : GoString
  Product : GoString
  OrderType : GoString
  Validity : GoString
  ValidityTTL : Int
  Quantity : Int
  Price : Float64
  TriggerPrice : Float64
  DisclosedQuantity : Int
  LastPrice : Float64
  Variety : GoString
  Tags : Slice GoString
  Squareoff : Float64
  Stoploss : Float64
  TrailingStoploss : Float64
  IcebergLegs : Int
  MarketProtection : Float64
  GTT : Option OrderGTTParams
  deriving DecidableEq

/-- Go `BasketItem`. -/
structure BasketItem where
  Type_ : GoString
  TradingSymbol : GoString
  Exchange : GoString
  Weight : Int
  Params : AlertOrderParams
  ID : Int
  InstrumentToken : Int
  deriving DecidableEq

/-- Go `Basket`. -/
structure Basket where
  Name : GoString
  Type_ : GoString
  Tags : Slice GoString
  Items : Slice BasketItem
  deriving DecidableEq

/-- Go `AlertParams`. -/
structure AlertParams where
  Name : String
  Type_ : AlertType
  LHSExchange : String
  LHSTradingSymbol : String
  LHSAttribute : String
  Operator : AlertOperator
  RHSType : String
  RHSConstant : Float64
  RHSExchange : String
  RHSTradingSymbol : String
  RHSAttribute : String
  Basket : Option Basket
  deriving DecidableEq

/-- Go `Alert`; `Time` stands for `models.Time`, declared outside `alerts.go`. -/
structure Alert (Time : Type) where
  Type_ : AlertType
  UserID : String
  UUID : String
  Name : String
  Status : AlertStatus
  DisabledReason : String
  LHSAttribute : String
  LHSExchange : String
  LHSTradingSymbol : String
  Operator : AlertOperator
  RHSType : String
  RHSAttribute : String
  RHSExchange : String
  RHSTradingSymbol : String
  RHSConstant : Float64
  AlertCount : Int
  CreatedAt : Time
  UpdatedAt : Time
  Basket : Option Basket

/-- The zero value of `Alert` (`var alert Alert`). -/
def Alert.zero {Time : Type} (zeroTime : Time) : Alert Time :=
  { Type_ := "", UserID := "", UUID := "", Name := "", Status := "",
    DisabledReason := "", LHSAttribute := "", LHSExchange := "",
    LHSTradingSymbol := "", Operator := "", RHSType := "", RHSAttribute := "",
    RHSExchange := "", RHSTradingSymbol := "", RHSConstant := Float64.zero,
    AlertCount := 0, CreatedAt := zeroTime, UpdatedAt := zeroTime, Basket := none }

/-- The anonymous response struct of `DeleteAlert`; `Data` is an
`interface{}`, kept as the raw text it was decoded from (`none` is `nil`). -/
structure DeleteResp where
  Status : String
  Data : Option String
  deriving DecidableEq

/-! ## The request executor and the standard library -/

/-- The arguments of one `doEnvelope` call: method, uri, form parameters and
headers. -/
structure Request where
  method : String
  uri : String
  params : Values
  headers : Option Values
  deriving DecidableEq

/-- The part of `Client` used by `alerts.go`: `doEnvelope` receives the
request and the current value behind the result pointer, and returns the value
it leaves there and its error. -/
structure Client where
  doEnvelope : {α : Type} → Request → α → α × GoError

/-- The Go standard library functions `alerts.go` calls on values whose text
form is fixed outside this repository. -/
structure StdLib where
  /-- The `fmt.Sprintf("%v", f)` of a `float64`. -/
  sprintfV : Float64 → String
  /-- The `json.Marshal` of a `*Basket`: the document, or the error message. -/
  jsonMarshal : Option Basket → Except String String

/-- The `fmt.Sprintf(format, arg)` of a format with one `%s` verb and a string
argument. -/
def sprintfS : List Char → String → List Char
  | [], _ => []
  | '%' :: 's' :: rest, arg => arg.data ++ rest
  | c :: rest, arg => c :: sprintfS rest arg

/-- What an operation returned, the form values it had built when it
returned, and the requests it handed to the executor, in order. -/
structure Outcome (α : Type) where
  value : α
  err : GoError
  values : Values
  calls : List Request

/-! ## Operations -/

/-- Go `Client.CreateAlert`. -/
def CreateAlert {Time : Type} (zeroTime : Time) (lib : StdLib) (c : Client)
    (params : AlertParams) : Outcome (Alert Time) :=
  let alert : Alert Time := Alert.zero zeroTime
  let values : Values := []
  let values := values.Set "name" params.Name
  let values := values.Set "type" params.Type_
  let values := values.Set "lhs_exchange" params.LHSExchange
  let values := values.Set "lhs_tradingsymbol" params.LHSTradingSymbol
  let values := values.Set "lhs_attribute" params.LHSAttribute
  let values := values.Set "operator" params.Operator
  let values := values.Set "rhs_type" params.RHSType
  let values :=
    if params.RHSType = "constant" then
      values.Set "rhs_constant" (lib.sprintfV params.RHSConstant)
    else if params.RHSType = "instrument" then
      let values := values.Set "rhs_exchange" params.RHSExchange
      let values := values.Set "rhs_tradingsymbol" params.RHSTradingSymbol
      values.Set "rhs_attribute" params.RHSAttribute
    else values
  let send (values : Values) : Outcome (Alert Time) :=
    let req : Request := ⟨MethodPost, URIAlerts, values, none⟩
    let r := c.doEnvelope req alert
    ⟨r.1, r.2, values, [req]⟩
  if params.Type_ = AlertTypeATO ∧ params.Basket ≠ none then
    match lib.jsonMarshal params.Basket with
    | .error err => ⟨alert, some ("error marshaling basket: " ++ err), values, []⟩
    | .ok basketJSON => send (values.Set "basket" basketJSON)
  else send values

/-- Go `Client.ModifyAlert`. -/
def ModifyAlert {Time : Type} (zeroTime : Time) (lib : StdLib) (c : Client)
    (uuid : String) (params : AlertParams) : Outcome (Alert Time) :=
  let alert : Alert Time := Alert.zero zeroTime
  let values : Values := []
  let values := values.Set "name" params.Name
  let values := values.Set "type" params.Type_
  let values := values.Set "lhs_exchange" params.LHSExchange
  let values := values.Set "lhs_tradingsymbol" params.LHSTradingSymbol
  let values := values.Set "lhs_attribute" params.LHSAttribute
  let values := values.Set "operator" params.Operator
  let values := values.Set "rhs_type" params.RHSType
  let values :=
    if params.RHSType = "constant" then
      values.Set "rhs_constant" (lib.sprintfV params.RHSConstant)
    else if params.RHSType = "instrument" then
      let values := values.Set "rhs_exchange" params.RHSExchange
      let values := values.Set "rhs_tradingsymbol" params.RHSTradingSymbol
      values.Set "rhs_attribute" params.RHSAttribute
    else values
  let send (values : Values) : Outcome (Alert Time) :=
    let req : Request :=
      ⟨MethodPut, String.mk (sprintfS URIAlert.data uuid), values, none⟩
    let r := c.doEnvelope req alert
    ⟨r.1, r.2, values, [req]⟩
  if params.Type_ = AlertTypeATO ∧ params.Basket ≠ none then
    match lib.jsonMarshal params.Basket with
    | .error err => ⟨alert, some ("error marshaling basket: " ++ err), values, []⟩
    | .ok basketJSON => send (values.Set "basket" basketJSON)
  else send values

/-- Go `Client.DeleteAlert`. -/
def DeleteAlert (c : Client) (uuids : List String) : Outcome Unit :=
  if uuids.length = 0 then
    ⟨(), some "at least one uuid must be provided", [], []⟩
  else
    let params : Values := uuids.foldl (fun params uuid => params.Add "uuid" uuid) []
    let resp : DeleteResp := ⟨"", none⟩
    let req : Request := ⟨MethodDelete, URIAlerts, params, none⟩
    let r := c.doEnvelope req resp
    ⟨(), r.2, params, [req]⟩

/-! ## Auxiliary notions for the statements -/

/-- The form values of `CreateAlert` and `ModifyAlert` before the basket
branch: the seven scalar fields and the right-hand side. -/
def scalarValues (lib : StdLib) (params : AlertParams) : Values :=
  let values : Values := []
  let values := values.Set "name" params.Name
  let values := values.Set "type" params.Type_
  let values := values.Set "lhs_exchange" params.LHSExchange
  let values := values.Set "lhs_tradingsymbol" params.LHSTradingSymbol
  let values := values.Set "lhs_attribute" params.LHSAttribute
  let values := values.Set "operator" params.Operator
  let values := values.Set "rhs_type" params.RHSType
  if params.RHSType = "constant" then
    values.Set "rhs_constant" (lib.sprintfV params.RHSConstant)
  else if params.RHSType = "instrument" then
    let values := values.Set "rhs_exchange" params.RHSExchange
    let values := values.Set "rhs_tradingsymbol" params.RHSTradingSymbol
    values.Set "rhs_attribute" params.RHSAttribute
  else values

/-- An operation handed exactly one request to the executor, carrying the
form values it built, and returned what the executor returned. -/
def Outcome.sentOnce {α : Type} (o : Outcome α) (c : Client) (method uri : String)
    (target : α) : Prop :=
  o.calls = [⟨method, uri, o.values, none⟩] ∧
  o.value = (c.doEnvelope ⟨method, uri, o.values, none⟩ target).1 ∧
  o.err = (c.doEnvelope ⟨method, uri, o.values, none⟩ target).2

/-- An operation failed locally: it returned an error and handed nothing to
the executor. -/
def Outcome.failedLocally {α : Type} (o : Outcome α) : Prop :=
  o.err ≠ none ∧ o.calls = []

/-- The one local failure of `CreateAlert` and `ModifyAlert`: the alert is an
ATO alert with a basket and `json.Marshal` reports an error for it. -/
def marshalFails (lib : StdLib) (p : AlertParams) : Prop :=
  p.Type_ = AlertTypeATO ∧ p.Basket ≠ none ∧ ∃ e, lib.jsonMarshal p.Basket = .error e

/-- The two ways `CreateAlert` and `ModifyAlert` end, for the method and uri
of the request. -/
def endsAsBuilt {α : Type} (o : Outcome α) (lib : StdLib) (c : Client) (p : AlertParams)
    (method uri : String) (target : α) : Prop :=
  (marshalFails lib p ∧ o.values = scalarValues lib p ∧ o.calls = [] ∧
      ∃ e, lib.jsonMarshal p.Basket = .error e ∧
        o.err = some ("error marshaling basket: " ++ e)) ∨
  (¬ marshalFails lib p ∧ o.sentOnce c method uri target ∧
      ((¬ (p.Type_ = AlertTypeATO ∧ p.Basket ≠ none) ∧ o.values = scalarValues lib p) ∨
       (p.Type_ = AlertTypeATO ∧ p.Basket ≠ none ∧
          ∃ j, lib.jsonMarshal p.Basket = .ok j ∧
            o.values = (scalarValues lib p).Set "basket" j)))

/-! ## A model of `encoding/json` for `Basket`

`json.Marshal` and `json.Unmarshal` belong to the Go standard library.  The
model below follows `encoding/json` (as of Go 1.22): a struct becomes an
object with its fields in declaration order under their tag names,
`omitempty` drops a zero integer and a nil pointer, a nil slice becomes
`null`, strings are escaped as by `appendString` with HTML escaping on, which
writes `\ufffd` for every byte that starts no valid UTF-8 sequence, and a
float that is NaN or infinite is an `UnsupportedValueError`.  Decoding checks
the syntax of the whole document first and then stores member by member into
the target: a key names a field when the two are equal after case folding, an
unknown key is skipped, `null` leaves a value as it is and makes a pointer or
slice nil, and a value of the wrong kind is an `UnmarshalTypeError`.  The text
of a finite float is produced and read by `strconv`, which enters as
`FloatText`.  A document is a Lean `String`: what `json.Marshal` writes is
valid UTF-8.  Not modelled: the nesting limit of the scanner, and the reuse of
earlier slice elements when a document repeats a key. -/

/-- One step of Go `appendString` over the bytes of a string: a character, or
a byte that starts no valid UTF-8 sequence. -/
inductive StrItem where
  | rune (c : Char)
  | invalid
  deriving DecidableEq

/-- The value tree of a JSON document; a number keeps its literal. -/
inductive JSON where
  | null
  | bool (b : Bool)
  | num (lit : List Char)
  | str (s : List StrItem)
  | arr (items : List JSON)
  | obj (members : List (List Char × JSON))

/-- The double quote. -/
def quoteC : Char := Char.ofNat 34

/-- The backslash. -/
def backslashC : Char := Char.ofNat 92

/-- The opening brace. -/
def lbraceC : Char := Char.ofNat 123

/-- The closing brace. -/
def rbraceC : Char := Char.ofNat 125

/-- The text conversions of `strconv` for `float64`. -/
structure FloatText where
  /-- The `strconv.AppendFloat` text `encoding/json` writes for a finite
  float. -/
  formatJSON : Float64 → List Char
  /-- The `strconv.ParseFloat(s, 64)`; `none` when it reports an error. -/
  parseFloat : List Char → Option Float64

/-! ### Numbers -/

/-- The decimal digit `d`. -/
def digitChar (d : Nat) : Char := Char.ofNat (48 + d)

/-- The decimal digits of `n`, most significant first, in front of `acc`. -/
def natDigitsAux : Nat → Nat → List Char → List Char
  | 0, _, acc => acc
  | fuel + 1, n, acc =>
    if n < 10 then digitChar n :: acc
    else natDigitsAux fuel (n / 10) (digitChar (n % 10) :: acc)

/-- The decimal digits of `n`. -/
def natDigits (n : Nat) : List Char := natDigitsAux (n + 1) n []

/-- Go `strconv.AppendInt(dst, i, 10)`. -/
def formatInt (i : Int) : List Char :=
  if i < 0 then '-' :: natDigits i.natAbs else natDigits i.natAbs

/-- Whether `c` is a decimal digit. -/
def isDigitC (c : Char) : Bool := decide ('0' ≤ c) && decide (c ≤ '9')

/-- The value of a string of decimal digits read after `acc`; `none` when a
character is not a digit. -/
def digitsValue : List Char → Nat → Option Nat
  | [], acc => some acc
  | c :: r, acc => if isDigitC c then digitsValue r (acc * 10 + (c.toNat - 48)) else none

/-- Go `strconv.ParseInt(s, 10, 64)` on a JSON number literal; `none` when it
reports an error, a value out of the range of `int64` included. -/
def parseInt (lit : List Char) : Option Int :=
  match lit with
  | [] => none
  | c :: r =>
    if c = '-' then
      match r with
      | [] => none
      | _ :: _ =>
        match digitsValue r 0 with
        | some n => if n ≤ 2 ^ 63 then some (-(n : Int)) else none
        | none => none
    else
      match digitsValue (c :: r) 0 with
      | some n => if n < 2 ^ 63 then some (n : Int) else none
      | none => none

/-- The characters a JSON number literal is made of. -/
def isNumChar (c : Char) : Bool :=
  isDigitC c || c = '-' || c = '+' || c = '.' || c = 'e' || c = 'E'

/-- The end of Go `isValidNumber`: an optional exponent, then the end. -/
def validExponent (s : List Char) : Bool :=
  match s with
  | e :: x :: r =>
    if e = 'e' || e = 'E' then
      if x = '+' || x = '-' then
        match r with
        | [] => false
        | _ :: _ => (r.dropWhile isDigitC).isEmpty
      else ((x :: r).dropWhile isDigitC).isEmpty
    else false
  | _ => s.isEmpty

/-- The middle of Go `isValidNumber`: an optional fraction, then the exponent. -/
def validFraction (s : List Char) : Bool :=
  match s with
  | p :: d :: r =>
    if p = '.' && isDigitC d then validExponent (r.dropWhile isDigitC)
    else validExponent s
  | _ => validExponent s

/-- The integer part of Go `isValidNumber`, after the optional sign. -/
def validInteger (s : List Char) : Bool :=
  match s with
  | [] => false
  | c :: r =>
    if c = '0' then validFraction r
    else if decide ('1' ≤ c) && decide (c ≤ '9') then validFraction (r.dropWhile isDigitC)
    else false

/-- Go `isValidNumber` of `encoding/json`: the grammar of a JSON number. -/
def isValidNumber (s : List Char) : Bool :=
  match s with
  | [] => false
  | c :: r => if c = '-' then validInteger r else validInteger (c :: r)

/-! ### UTF-8 -/

/-- The byte with value `n` modulo 256. -/
def byte (n : Nat) : Byte := ⟨n % 256, Nat.mod_lt n (by decide)⟩

/-- Go `utf8.AppendRune` for a Unicode scalar value. -/
def utf8Char (c : Char) : GoString :=
  if c.toNat < 0x80 then [byte c.toNat]
  else if c.toNat < 0x800 then [byte (0xC0 + c.toNat / 64), byte (0x80 + c.toNat % 64)]
  else if c.toNat < 0x10000 then
    [byte (0xE0 + c.toNat / 4096), byte (0x80 + c.toNat / 64 % 64), byte (0x80 + c.toNat % 64)]
  else
    [byte (0xF0 + c.toNat / 262144), byte (0x80 + c.toNat / 4096 % 64),
      byte (0x80 + c.toNat / 64 % 64), byte (0x80 + c.toNat % 64)]

/-- The bytes of a valid string, from its characters. -/
def utf8 (s : String) : GoString := s.data.flatMap utf8Char

/-- Whether the value of `b` lies between `lo` and `hi`. -/
def inRange (lo hi : Nat) (b : Byte) : Bool := decide (lo ≤ b.val) && decide (b.val ≤ hi)

/-- Go `utf8.DecodeRuneInString` on a non-empty string: the character and the
rest of the string, or `none` where Go returns `RuneError` with size 1. -/
def decodeRune : GoString → Option (Char × GoString)
  | [] => none
  | b0 :: rest =>
    if b0.val < 0x80 then some (Char.ofNat b0.val, rest)
    else if b0.val < 0xC2 then none
    else if b0.val < 0xE0 then
      match rest with
      | b1 :: r1 =>
        if inRange 0x80 0xBF b1 then
          some (Char.ofNat (b0.val % 32 * 64 + b1.val % 64), r1)
        else none
      | _ => none
    else if b0.val < 0xF0 then
      match rest with
      | b1 :: b2 :: r2 =>
        if inRange (if b0.val = 0xE0 then 0xA0 else 0x80) (if b0.val = 0xED then 0x9F else 0xBF) b1
            && inRange 0x80 0xBF b2 then
          some (Char.ofNat (b0.val % 16 * 4096 + b1.val % 64 * 64 + b2.val % 64), r2)
        else none
      | _ => none
    else if b0.val < 0xF5 then
      match rest with
      | b1 :: b2 :: b3 :: r3 =>
        if inRange (if b0.val = 0xF0 then 0x90 else 0x80) (if b0.val = 0xF4 then 0x8F else 0xBF) b1
            && inRange 0x80 0xBF b2 && inRange 0x80 0xBF b3 then
          some (Char.ofNat (b0.val % 8 * 262144 + b1.val % 64 * 4096 + b2.val % 64 * 64
            + b3.val % 64), r3)
        else none
      | _ => none
    else none

/-- The loop of Go `appendString` over the bytes of a string: an ASCII byte is
a character, other bytes are decoded, and a byte that starts no valid
sequence is stepped over alone. -/
def scanString : Nat → GoString → List StrItem
  | 0, _ => []
  | _ + 1, [] => []
  | fuel + 1, b :: rest =>
    if b.val < 0x80 then .rune (Char.ofNat b.val) :: scanString fuel rest
    else
      match decodeRune (b :: rest) with
      | none => .invalid :: scanString fuel rest
      | some (c, rest2) => .rune c :: scanString fuel rest2

/-- Go `utf8.ValidString`. -/
def utf8Valid (s : GoString) : Bool := (scanString s.length s).all (fun i => i != .invalid)

/-! ### Strings -/

/-- Go `htmlSafeSet`: the ASCII characters written as they are. -/
def htmlSafe (c : Char) : Bool :=
  decide (32 ≤ c.toNat) && decide (c.toNat < 128) && c != quoteC && c != backslashC &&
    c != '<' && c != '>' && c != '&'

/-- The lower-case hexadecimal digit `d`. -/
def hexChar (d : Nat) : Char := if d < 10 then Char.ofNat (48 + d) else Char.ofNat (87 + d)

/-- What Go `appendString` writes for one character of a valid string. -/
def escapeChar (c : Char) : List Char :=
  if c.toNat < 128 then
    if htmlSafe c then [c]
    else if c = backslashC || c = quoteC then [backslashC, c]
    else if c.toNat = 8 then [backslashC, 'b']
    else if c.toNat = 12 then [backslashC, 'f']
    else if c.toNat = 10 then [backslashC, 'n']
    else if c.toNat = 13 then [backslashC, 'r']
    else if c.toNat = 9 then [backslashC, 't']
    else [backslashC, 'u', '0', '0', hexChar (c.toNat / 16), hexChar (c.toNat % 16)]
  else if c.toNat = 0x2028 || c.toNat = 0x2029 then
    [backslashC, 'u', '2', '0', '2', hexChar (c.toNat % 16)]
  else [c]

/-- The body of a string as Go `appendString` writes it. -/
def escape : List Char → List Char
  | [] => []
  | c :: r => escapeChar c ++ escape r

/-- What Go `appendString` writes for one step over a string. -/
def escapeItem : StrItem → List Char
  | .rune c => escapeChar c
  | .invalid => [backslashC, 'u', 'f', 'f', 'f', 'd']

/-- What Go `appendString` writes between the quotes. -/
def escapeItems : List StrItem → List Char
  | [] => []
  | i :: r => escapeItem i ++ escapeItems r

/-- The bytes a step over a string stands for once decoded: those of the
character, and those of U+FFFD for an invalid byte. -/
def itemBytes : StrItem → GoString
  | .rune c => utf8Char c
  | .invalid => utf8Char (Char.ofNat 0xFFFD)

/-- The value of a hexadecimal digit. -/
def hexVal (c : Char) : Option Nat :=
  if decide ('0' ≤ c) && decide (c ≤ '9') then some (c.toNat - 48)
  else if decide ('a' ≤ c) && decide (c ≤ 'f') then some (c.toNat - 87)
  else if decide ('A' ≤ c) && decide (c ≤ 'F') then some (c.toNat - 55)
  else none

/-- Go `getu4` after the `\u`: the value of four hexadecimal digits. -/
def hex4 (a b c d : Char) : Option Nat :=
  match hexVal a, hexVal b, hexVal c, hexVal d with
  | some x, some y, some z, some w => some (((x * 16 + y) * 16 + z) * 16 + w)
  | _, _, _, _ => none

/-- The character a one-letter escape stands for. -/
def unescapeSimple (e : Char) : Option Char :=
  if e = quoteC then some quoteC
  else if e = backslashC then some backslashC
  else if e = '/' then some '/'
  else if e = 'b' then some (Char.ofNat 8)
  else if e = 'f' then some (Char.ofNat 12)
  else if e = 'n' then some (Char.ofNat 10)
  else if e = 'r' then some (Char.ofNat 13)
  else if e = 't' then some (Char.ofNat 9)
  else none

/-- The second half of a surrogate pair, when the input goes on with one. -/
def lowSurrogate (hi : Nat) (input : List Char) : Option (Char × List Char) :=
  match input with
  | b :: u :: a2 :: b2 :: c2 :: d2 :: r =>
    if b = backslashC && u = 'u' then
      match hex4 a2 b2 c2 d2 with
      | some lo =>
        if 0xD800 ≤ hi ∧ hi < 0xDC00 ∧ 0xDC00 ≤ lo ∧ lo < 0xE000 then
          some (Char.ofNat (0x10000 + (hi - 0xD800) * 0x400 + (lo - 0xDC00)), r)
        else none
      | none => none
    else none
  | _ => none

/-- The scanner and Go `unquote` on the text after an opening quote: the
characters of the string, last first in `acc`, up to the closing quote. -/
def parseStringBody : Nat → List Char → List Char → Option (List Char × List Char)
  | 0, _, _ => none
  | _ + 1, [], _ => none
  | fuel + 1, c :: r, acc =>
    if c = quoteC then some (acc.reverse, r)
    else if c = backslashC then
      match r with
      | [] => none
      | e :: r2 =>
        if e = 'u' then
          match r2 with
          | a :: b :: c2 :: d :: r3 =>
            match hex4 a b c2 d with
            | none => none
            | some n =>
              if 0xD800 ≤ n ∧ n < 0xE000 then
                match lowSurrogate n r3 with
                | some (ch, r4) => parseStringBody fuel r4 (ch :: acc)
                | none => parseStringBody fuel r3 (Char.ofNat 0xFFFD :: acc)
              else parseStringBody fuel r3 (Char.ofNat n :: acc)
          | _ => none
        else
          match unescapeSimple e with
          | some x => parseStringBody fuel r2 (x :: acc)
          | none => none
    else if c.toNat < 32 then none
    else parseStringBody fuel r (c :: acc)

/-! ### Documents -/

/-- JSON white space. -/
def isWS (c : Char) : Bool := c = ' ' || c = '\t' || c = '\n' || c = '\r'

/-- The input after leading white space. -/
def skipWS : List Char → List Char
  | [] => []
  | c :: r => if isWS c then skipWS r else c :: r

mutual
/-- The compact text of a value. -/
def render : JSON → List Char
  | .null => ['n', 'u', 'l', 'l']
  | .bool true => ['t', 'r', 'u', 'e']
  | .bool false => ['f', 'a', 'l', 's', 'e']
  | .num lit => lit
  | .str s => quoteC :: (escapeItems s ++ [quoteC])
  | .arr items => '[' :: (renderItems items ++ [']'])
  | .obj members => lbraceC :: (renderMembers members ++ [rbraceC])
/-- The elements of an array, separated by commas. -/
def renderItems : List JSON → List Char
  | [] => []
  | x :: rest =>
    match rest with
    | [] => render x
    | _ :: _ => render x ++ ',' :: renderItems rest
/-- The members of an object, separated by commas. -/
def renderMembers : List (List Char × JSON) → List Char
  | [] => []
  | (k, x) :: rest =>
    match rest with
    | [] => quoteC :: (escape k ++ quoteC :: ':' :: render x)
    | _ :: _ => quoteC :: (escape k ++ quoteC :: ':' :: (render x ++ ',' :: renderMembers rest))
end

mutual
/-- One value at the start of the input, and the input after it. -/
def parseValue : Nat → List Char → Option (JSON × List Char)
  | 0, _ => none
  | fuel + 1, input =>
    match skipWS input with
    | [] => none
    | c :: r =>
      if c = quoteC then
        match parseStringBody fuel r [] with
        | some (s, r2) => some (.str (s.map StrItem.rune), r2)
        | none => none
      else if c = '[' then
        match skipWS r with
        | [] => none
        | c2 :: r2 =>
          if c2 = ']' then some (.arr [], r2)
          else
            match parseElements fuel (c2 :: r2) with
            | some (xs, r3) => some (.arr xs, r3)
            | none => none
      else if c = lbraceC then
        match skipWS r with
        | [] => none
        | c2 :: r2 =>
          if c2 = rbraceC then some (.obj [], r2)
          else
            match parseMembers fuel (c2 :: r2) with
            | some (ms, r3) => some (.obj ms, r3)
            | none => none
      else if c = '-' || isDigitC c then
        let lit := (c :: r).takeWhile isNumChar
        if isValidNumber lit then some (.num lit, (c :: r).dropWhile isNumChar) else none
      else
        match c :: r with
        | 'n' :: 'u' :: 'l' :: 'l' :: r2 => some (.null, r2)
        | 't' :: 'r' :: 'u' :: 'e' :: r2 => some (.bool true, r2)
        | 'f' :: 'a' :: 'l' :: 's' :: 'e' :: r2 => some (.bool false, r2)
        | _ => none
/-- The elements of an array up to its closing bracket. -/
def parseElements : Nat → List Char → Option (List JSON × List Char)
  | 0, _ => none
  | fuel + 1, input =>
    match parseValue fuel input with
    | none => none
    | some (v, rest) =>
      match skipWS rest with
      | [] => none
      | c :: r =>
        if c = ',' then
          match parseElements fuel r with
          | some (vs, r2) => some (v :: vs, r2)
          | none => none
        else if c = ']' then some ([v], r)
        else none
/-- The members of an object up to its closing brace. -/
def parseMembers : Nat → List Char → Option (List (List Char × JSON) × List Char)
  | 0, _ => none
  | fuel + 1, input =>
    match skipWS input with
    | [] => none
    | q :: r0 =>
      if q = quoteC then
        match parseStringBody fuel r0 [] with
        | none => none
        | some (k, r1) =>
          match skipWS r1 with
          | [] => none
          | colon :: r2 =>
            if colon = ':' then
              match parseValue fuel r2 with
              | none => none
              | some (v, rest) =>
                match skipWS rest with
                | [] => none
                | c :: r =>
                  if c = ',' then
                    match parseMembers fuel r with
                    | some (ms, r3) => some ((k, v) :: ms, r3)
                    | none => none
                  else if c = rbraceC then some ([(k, v)], r)
                  else none
            else none
      else none
end

/-- Go `checkValid` together with the reading of the document: the value of
a document that is one JSON value between optional white space. -/
def parseDocument (input : List Char) : Option JSON :=
  match parseValue (input.length + 1) input with
  | some (v, rest) => if (skipWS rest).isEmpty then some v else none
  | none => none

/-! ### Encoding a basket -/

/-- The message of the `UnsupportedValueError` for a float that is NaN or
infinite. -/
def unsupportedValue (f : Float64) : String :=
  "json: unsupported value: " ++
    (if f.IsNaN then "NaN" else if f.bits < 2 ^ 63 then "+Inf" else "-Inf")

/-- Go `floatEncoder.encode`. -/
def encodeFloat (ft : FloatText) (f : Float64) : Except String JSON :=
  if f.IsInf || f.IsNaN then .error (unsupportedValue f) else .ok (.num (ft.formatJSON f))

/-- Go `intEncoder`. -/
def encodeInt (i : Int) : JSON := .num (formatInt i)

/-- Go `stringEncoder`. -/
def encodeString (s : GoString) : JSON := .str (scanString s.length s)

/-- The encoder of a `[]string`. -/
def encodeStrings : Slice GoString → JSON
  | none => .null
  | some xs => .arr (xs.map encodeString)

/-- The member of an `omitempty` integer field. -/
def omitEmptyInt (name : String) (i : Int) : List (List Char × JSON) :=
  if i = 0 then [] else [(name.data, encodeInt i)]

/-- The encoder of `OrderGTTParams`. -/
def encodeGTT (ft : FloatText) (g : OrderGTTParams) : Except String JSON := do
  let target ← encodeFloat ft g.Target
  let stoploss ← encodeFloat ft g.Stoploss
  pure (.obj [("target".data, target), ("stoploss".data, stoploss)])

/-- The member of the `omitempty` field `gtt`. -/
def encodeGTTMember (ft : FloatText) :
    Option OrderGTTParams → Except String (List (List Char × JSON))
  | none => pure []
  | some g => do
    let j ← encodeGTT ft g
    pure [("gtt".data, j)]

/-- The encoder of `AlertOrderParams`. -/
def encodeOrderParams (ft : FloatText) (p : AlertOrderParams) : Except String JSON := do
  let price ← encodeFloat ft p.Price
  let triggerPrice ← encodeFloat ft p.TriggerPrice
  let lastPrice ← encodeFloat ft p.LastPrice
  let squareoff ← encodeFloat ft p.Squareoff
  let stoploss ← encodeFloat ft p.Stoploss
  let trailingStoploss ← encodeFloat ft p.TrailingStoploss
  let marketProtection ← encodeFloat ft p.MarketProtection
  let gtt ← encodeGTTMember ft p.GTT
  pure (.obj ([("transaction_type".data, encodeString p.TransactionType),
    ("product".data, encodeString p.Product),
    ("order_type".data, encodeString p.OrderType),
    ("validity".data, encodeString p.Validity),
    ("validity_ttl".data, encodeInt p.ValidityTTL),
    ("quantity".data, encodeInt p.Quantity),
    ("price".data, price),
    ("trigger_price".data, triggerPrice),
    ("disclosed_quantity".data, encodeInt p.DisclosedQuantity),
    ("last_price".data, lastPrice),
    ("variety".data, encodeString p.Variety),
    ("tags".data, encodeStrings p.Tags),
    ("squareoff".data, squareoff),
    ("stoploss".data, stoploss),
    ("trailing_stoploss".data, trailingStoploss),
    ("iceberg_legs".data, encodeInt p.IcebergLegs),
    ("market_protection".data, marketProtection)] ++ gtt))

/-- The encoder of `BasketItem`. -/
def encodeItem (ft : FloatText) (i : BasketItem) : Except String JSON := do
  let params ← encodeOrderParams ft i.Params
  pure (.obj ([("type".data, encodeString i.Type_),
    ("tradingsymbol".data, encodeString i.TradingSymbol),
    ("exchange".data, encodeString i.Exchange),
    ("weight".data, encodeInt i.Weight),
    ("params".data, params)] ++ omitEmptyInt "id" i.ID ++
    omitEmptyInt "instrument_token" i.InstrumentToken))

/-- The encoder of a `[]BasketItem`. -/
def encodeItems (ft : FloatText) : Slice BasketItem → Except String JSON
  | none => pure .null
  | some xs => do
    let js ← xs.mapM (encodeItem ft)
    pure (.arr js)

/-- The encoder of `Basket`. -/
def encodeBasket (ft : FloatText) (b : Basket) : Except String JSON := do
  let items ← encodeItems ft b.Items
  pure (.obj [("name".data, encodeString b.Name),
    ("type".data, encodeString b.Type_),
    ("tags".data, encodeStrings b.Tags),
    ("items".data, items)])

/-- Go `json.Marshal` of a `*Basket`: the document, or the message of the
error. -/
def jsonMarshal (ft : FloatText) : Option Basket → Except String String
  | none => .ok "null"
  | some b =>
    match encodeBasket ft b with
    | .ok j => .ok (String.mk (render j))
    | .error e => .error e

/-! ### Decoding a basket -/

/-- The name of the kind of a value in an `UnmarshalTypeError`. -/
def JSON.kind : JSON → String
  | .null => "null"
  | .bool _ => "bool"
  | .num _ => "number"
  | .str _ => "string"
  | .arr _ => "array"
  | .obj _ => "object"

/-- The message of an `UnmarshalTypeError`. -/
def typeError (j : JSON) (goType : String) : String :=
  "json: cannot unmarshal " ++ j.kind ++ " into Go value of type " ++ goType

/-- Go `foldRune` as far as it can reach an ASCII letter: letters go to upper
case, the long s to `S` and the Kelvin sign to `K`. -/
def foldChar (c : Char) : Char :=
  if decide ('a' ≤ c) && decide (c ≤ 'z') then Char.ofNat (c.toNat - 32)
  else if c.toNat = 0x17F then 'S'
  else if c.toNat = 0x212A then 'K'
  else c

/-- The position of the field a key names among the tag names of a struct:
the names match when they are equal after case folding. -/
def fieldIndexFrom : List String → List Char → Nat → Option Nat
  | [], _, _ => none
  | f :: fs, key, i =>
    if f.data.map foldChar = key.map foldChar then some i else fieldIndexFrom fs key (i + 1)

/-- The position of the field a key names. -/
def fieldIndex (fields : List String) (key : List Char) : Option Nat :=
  fieldIndexFrom fields key 0

/-- Storing a value into a `string`. -/
def decodeString (cur : GoString) (j : JSON) : Except String GoString :=
  match j with
  | .null => .ok cur
  | .str s => .ok (s.flatMap itemBytes)
  | _ => .error (typeError j "string")

/-- Storing a value into an `int`. -/
def decodeInt (cur : Int) (j : JSON) : Except String Int :=
  match j with
  | .null => .ok cur
  | .num lit =>
    match parseInt lit with
    | some v => .ok v
    | none => .error (typeError j "int")
  | _ => .error (typeError j "int")

/-- Storing a value into a `float64`. -/
def decodeFloat (ft : FloatText) (cur : Float64) (j : JSON) : Except String Float64 :=
  match j with
  | .null => .ok cur
  | .num lit =>
    match ft.parseFloat lit with
    | some v => .ok v
    | none => .error (typeError j "float64")
  | _ => .error (typeError j "float64")

/-- Storing a value into a `[]string`. -/
def decodeStrings (j : JSON) : Except String (Slice GoString) :=
  match j with
  | .null => .ok none
  | .arr items =>
    match items.mapM (decodeString []) with
    | .ok xs => .ok (some xs)
    | .error e => .error e
  | _ => .error (typeError j "[]string")

/-- The zero value of `OrderGTTParams`. -/
def OrderGTTParams.zero : OrderGTTParams := ⟨Float64.zero, Float64.zero⟩

/-- The zero value of `AlertOrderParams`. -/
def AlertOrderParams.zero : AlertOrderParams :=
  { TransactionType := [], Product := [], OrderType := [], Validity := [], ValidityTTL := 0,
    Quantity := 0, Price := Float64.zero, TriggerPrice := Float64.zero,
    DisclosedQuantity := 0, LastPrice := Float64.zero, Variety := [], Tags := none,
    Squareoff := Float64.zero, Stoploss := Float64.zero, TrailingStoploss := Float64.zero,
    IcebergLegs := 0, MarketProtection := Float64.zero, GTT := none }

/-- The zero value of `BasketItem`. -/
def BasketItem.zero : BasketItem :=
  { Type_ := [], TradingSymbol := [], Exchange := [], Weight := 0,
    Params := AlertOrderParams.zero, ID := 0, InstrumentToken := 0 }

/-- The zero value of `Basket`. -/
def Basket.zero : Basket := { Name := [], Type_ := [], Tags := none, Items := none }

/-- The tag names of `OrderGTTParams`. -/
def gttFields : List String := ["target", "stoploss"]

/-- The tag names of `AlertOrderParams`. -/
def orderParamsFields : List String :=
  ["transaction_type", "product", "order_type", "validity", "validity_ttl", "quantity",
   "price", "trigger_price", "disclosed_quantity", "last_price", "variety", "tags",
   "squareoff", "stoploss", "trailing_stoploss", "iceberg_legs", "market_protection", "gtt"]

/-- The tag names of `BasketItem`. -/
def itemFields : List String :=
  ["type", "tradingsymbol", "exchange", "weight", "params", "id", "instrument_token"]

/-- The tag names of `Basket`. -/
def basketFields : List String := ["name", "type", "tags", "items"]

/-- Storing one member into an `OrderGTTParams`. -/
def decodeGTTField (ft : FloatText) (g : OrderGTTParams) (m : List Char × JSON) :
    Except String OrderGTTParams :=
  match fieldIndex gttFields m.1 with
  | some 0 => do let x ← decodeFloat ft g.Target m.2; pure { g with Target := x }
  | some 1 => do let x ← decodeFloat ft g.Stoploss m.2; pure { g with Stoploss := x }
  | _ => pure g

/-- Storing a value into a `*OrderGTTParams`. -/
def decodeGTT (ft : FloatText) (cur : Option OrderGTTParams) (j : JSON) :
    Except String (Option OrderGTTParams) :=
  match j with
  | .null => .ok none
  | .obj members =>
    match members.foldlM (decodeGTTField ft) (cur.getD OrderGTTParams.zero) with
    | .ok g => .ok (some g)
    | .error e => .error e
  | _ => .error (typeError j "kiteconnect.OrderGTTParams")

/-- Storing one member into an `AlertOrderParams`. -/
def decodeOrderParamsField (ft : FloatText) (p : AlertOrderParams) (m : List Char × JSON) :
    Except String AlertOrderParams :=
  match fieldIndex orderParamsFields m.1 with
  | some 0 => do let x ← decodeString p.TransactionType m.2; pure { p with TransactionType := x }
  | some 1 => do let x ← decodeString p.Product m.2; pure { p with Product := x }
  | some 2 => do let x ← decodeString p.OrderType m.2; pure { p with OrderType := x }
  | some 3 => do let x ← decodeString p.Validity m.2; pure { p with Validity := x }
  | some 4 => do let x ← decodeInt p.ValidityTTL m.2; pure { p with ValidityTTL := x }
  | some 5 => do let x ← decodeInt p.Quantity m.2; pure { p with Quantity := x }
  | some 6 => do let x ← decodeFloat ft p.Price m.2; pure { p with Price := x }
  | some 7 => do let x ← decodeFloat ft p.TriggerPrice m.2; pure { p with TriggerPrice := x }
  | some 8 => do
    let x ← decodeInt p.DisclosedQuantity m.2
    pure { p with DisclosedQuantity := x }
  | some 9 => do let x ← decodeFloat ft p.LastPrice m.2; pure { p with LastPrice := x }
  | some 10 => do let x ← decodeString p.Variety m.2; pure { p with Variety := x }
  | some 11 => do let x ← decodeStrings m.2; pure { p with Tags := x }
  | some 12 => do let x ← decodeFloat ft p.Squareoff m.2; pure { p with Squareoff := x }
  | some 13 => do let x ← decodeFloat ft p.Stoploss m.2; pure { p with Stoploss := x }
  | some 14 => do
    let x ← decodeFloat ft p.TrailingStoploss m.2
    pure { p with TrailingStoploss := x }
  | some 15 => do let x ← decodeInt p.IcebergLegs m.2; pure { p with IcebergLegs := x }
  | some 16 => do
    let x ← decodeFloat ft p.MarketProtection m.2
    pure { p with MarketProtection := x }
  | some 17 => do let x ← decodeGTT ft p.GTT m.2; pure { p with GTT := x }
  | _ => pure p

/-- Storing a value into an `AlertOrderParams`. -/
def decodeOrderParams (ft : FloatText) (cur : AlertOrderParams) (j : JSON) :
    Except String AlertOrderParams :=
  match j with
  | .null => .ok cur
  | .obj members => members.foldlM (decodeOrderParamsField ft) cur
  | _ => .error (typeError j "kiteconnect.AlertOrderParams")

/-- Storing one member into a `BasketItem`. -/
def decodeItemField (ft : FloatText) (i : BasketItem) (m : List Char × JSON) :
    Except String BasketItem :=
  match fieldIndex itemFields m.1 with
  | some 0 => do let x ← decodeString i.Type_ m.2; pure { i with Type_ := x }
  | some 1 => do let x ← decodeString i.TradingSymbol m.2; pure { i with TradingSymbol := x }
  | some 2 => do let x ← decodeString i.Exchange m.2; pure { i with Exchange := x }
  | some 3 => do let x ← decodeInt i.Weight m.2; pure { i with Weight := x }
  | some 4 => do let x ← decodeOrderParams ft i.Params m.2; pure { i with Params := x }
  | some 5 => do let x ← decodeInt i.ID m.2; pure { i with ID := x }
  | some 6 => do let x ← decodeInt i.InstrumentToken m.2; pure { i with InstrumentToken := x }
  | _ => pure i

/-- Storing a value into a `BasketItem`. -/
def decodeItem (ft : FloatText) (cur : BasketItem) (j : JSON) : Except String BasketItem :=
  match j with
  | .null => .ok cur
  | .obj members => members.foldlM (decodeItemField ft) cur
  | _ => .error (typeError j "kiteconnect.BasketItem")

/-- Storing a value into a `[]BasketItem`; every element starts from the zero
value. -/
def decodeItems (ft : FloatText) (j : JSON) : Except String (Slice BasketItem) :=
  match j with
  | .null => .ok none
  | .arr items =>
    match items.mapM (decodeItem ft BasketItem.zero) with
    | .ok xs => .ok (some xs)
    | .error e => .error e
  | _ => .error (typeError j "[]kiteconnect.BasketItem")

/-- Storing one member into a `Basket`. -/
def decodeBasketField (ft : FloatText) (b : Basket) (m : List Char × JSON) :
    Except String Basket :=
  match fieldIndex basketFields m.1 with
  | some 0 => do let x ← decodeString b.Name m.2; pure { b with Name := x }
  | some 1 => do let x ← decodeString b.Type_ m.2; pure { b with Type_ := x }
  | some 2 => do let x ← decodeStrings m.2; pure { b with Tags := x }
  | some 3 => do let x ← decodeItems ft m.2; pure { b with Items := x }
  | _ => pure b

/-- Storing a value into a `Basket`. -/
def decodeBasket (ft : FloatText) (cur : Basket) (j : JSON) : Except String Basket :=
  match j with
  | .null => .ok cur
  | .obj members => members.foldlM (decodeBasketField ft) cur
  | _ => .error (typeError j "kiteconnect.Basket")

/-- Go `json.Unmarshal(data, &target)` for a `Basket` target: the value left
in the target, or the message of the error. -/
def jsonUnmarshal (ft : FloatText) (data : String) (target : Basket) : Except String Basket :=
  match parseDocument data.data with
  | none => .error "invalid character or unexpected end of JSON input"
  | some j => decodeBasket ft target j

/-! ### What the round trip needs of a basket -/

/-- A float is finite. -/
def Float64.isFinite (f : Float64) : Bool := !(f.IsInf || f.IsNaN)

/-- An integer is a value of the 64-bit Go `int`. -/
def fitsInt (i : Int) : Bool := decide (-(2 ^ 63) ≤ i) && decide (i < 2 ^ 63)

/-- The floats of a `*OrderGTTParams`. -/
def gttFloats : Option OrderGTTParams → List Float64
  | none => []
  | some g => [g.Target, g.Stoploss]

/-- The floats of an `AlertOrderParams`, in field order. -/
def AlertOrderParams.floats (p : AlertOrderParams) : List Float64 :=
  [p.Price, p.TriggerPrice, p.LastPrice, p.Squareoff, p.Stoploss, p.TrailingStoploss,
    p.MarketProtection] ++ gttFloats p.GTT

/-- The integers of an `AlertOrderParams`. -/
def AlertOrderParams.ints (p : AlertOrderParams) : List Int :=
  [p.ValidityTTL, p.Quantity, p.DisclosedQuantity, p.IcebergLegs]

/-- The floats of a basket. -/
def Basket.floats (b : Basket) : List Float64 :=
  (b.Items.getD []).flatMap (fun i => i.Params.floats)

/-- The integers of a basket. -/
def Basket.ints (b : Basket) : List Int :=
  (b.Items.getD []).flatMap (fun i => [i.Weight, i.ID, i.InstrumentToken] ++ i.Params.ints)

/-- The strings of an `AlertOrderParams`. -/
def AlertOrderParams.strings (p : AlertOrderParams) : List GoString :=
  [p.TransactionType, p.Product, p.OrderType, p.Validity, p.Variety] ++ p.Tags.getD []

/-- The strings of a `BasketItem`. -/
def BasketItem.strings (i : BasketItem) : List GoString :=
  [i.Type_, i.TradingSymbol, i.Exchange] ++ i.Params.strings

/-- The strings of a basket. -/
def Basket.strings (b : Basket) : List GoString :=
  [b.Name, b.Type_] ++ b.Tags.getD [] ++ (b.Items.getD []).flatMap (fun i => i.strings)

/-- The text of a float is a JSON number that reads back as the float. -/
def FloatText.roundTrips (ft : FloatText) (f : Float64) : Prop :=
  isValidNumber (ft.formatJSON f) = true ∧ ft.parseFloat (ft.formatJSON f) = some f

/-- A value whose number literals follow the JSON grammar. -/
inductive JSON.WF : JSON → Prop
  | null : JSON.WF .null
  | bool (b : Bool) : JSON.WF (.bool b)
  | num (lit : List Char) : isValidNumber lit = true → JSON.WF (.num lit)
  | str (s : List Char) : JSON.WF (.str (s.map StrItem.rune))
  | arr (items : List JSON) : (∀ x ∈ items, JSON.WF x) → JSON.WF (.arr items)
  | obj (members : List (List Char × JSON)) :
      (∀ m ∈ members, JSON.WF m.2) → JSON.WF (.obj members)

/-- The input does not go on with a character of a number literal. -/
def endsNumber : List Char → Bool
  | [] => true
  | c :: _ => !isNumChar c

/-- What the induction on a value knows of it: its text reads back. -/
def ReadsBack (x : JSON) : Prop :=
  ∀ fuel rest, (render x).length < fuel → endsNumber rest = true →
    parseValue fuel (render x ++ rest) = some (x, rest)

instance (ft : FloatText) (f : Float64) : Decidable (ft.roundTrips f) := by
  unfold FloatText.roundTrips
  infer_instance

/-! ## Sample inputs -/

/-- The float `27000`. -/
def float27000 : Float64 := ⟨0x40DA5E0000000000, by decide⟩

/-- The float `27500`. -/
def float27500 : Float64 := ⟨0x40DADB0000000000, by decide⟩

/-- The float returned by Go `math.NaN()`. -/
def floatNaN : Float64 := ⟨0x7FF8000000000001, by decide⟩

/-- A `%v` formatter that agrees with Go on the two constants of the test
suite. -/
def sampleSprintfV (f : Float64) : String :=
  if f = float27000 then "27000" else if f = float27500 then "27500" else "0"

/-- An executor that answers every request with success and leaves the target
untouched. -/
def okClient : Client := ⟨fun _ target => (target, none)⟩

/-- The parameters of `TestCreateAlert`. -/
def testCreateParams : AlertParams :=
  { Name := "NIFTY 50", Type_ := AlertTypeSimple, LHSExchange := "INDICES",
    LHSTradingSymbol := "NIFTY 50", LHSAttribute := "LastTradedPrice",
    Operator := AlertOperatorGE, RHSType := "constant", RHSConstant := float27000,
    RHSExchange := "", RHSTradingSymbol := "", RHSAttribute := "", Basket := none }

/-- The uuid of the test suite. -/
def testUUID : String := "550e8400-e29b-41d4-a716-446655440000"

/-- The float `100.5`. -/
def float100_5 : Float64 := ⟨0x4059200000000000, by decide⟩

/-- A `strconv` for the examples: it agrees with Go on the floats `0`,
`100.5`, `27000` and `27500`, and on no other float. -/
def sampleFloatText : FloatText :=
  { formatJSON := fun f =>
      if f = float100_5 then "100.5".data
      else if f = float27000 then "27000".data
      else if f = float27500 then "27500".data
      else "0".data
    parseFloat := fun lit =>
      if lit = "100.5".data then some float100_5
      else if lit = "27000".data then some float27000
      else if lit = "27500".data then some float27500
      else if lit = "0".data then some Float64.zero
      else none }

/-- A standard library for the examples. -/
def sampleLib : StdLib := ⟨sampleSprintfV, jsonMarshal sampleFloatText⟩

/-- An ATO alert without a basket. -/
def atoNoBasketParams : AlertParams :=
  { Name := "NIFTY 50", Type_ := AlertTypeATO, LHSExchange := "INDICES",
    LHSTradingSymbol := "NIFTY 50", LHSAttribute := "LastTradedPrice",
    Operator := AlertOperatorGE, RHSType := "constant", RHSConstant := float27000,
    RHSExchange := "", RHSTradingSymbol := "", RHSAttribute := "", Basket := none }

/-- A simple alert whose right-hand side type is the empty string, with the
instrument fields filled in. -/
def emptyRHSTypeParams : AlertParams :=
  { Name := "NIFTY 50", Type_ := AlertTypeSimple, LHSExchange := "INDICES",
    LHSTradingSymbol := "NIFTY 50", LHSAttribute := "LastTradedPrice",
    Operator := AlertOperatorGE, RHSType := "", RHSConstant := Float64.zero,
    RHSExchange := "NSE", RHSTradingSymbol := "INFY", RHSAttribute := "LastTradedPrice",
    Basket := none }

/-- A simple alert comparing against another instrument. -/
def instrumentParams : AlertParams :=
  { Name := "NIFTY 50", Type_ := AlertTypeSimple, LHSExchange := "INDICES",
    LHSTradingSymbol := "NIFTY 50", LHSAttribute := "LastTradedPrice",
    Operator := AlertOperatorGE, RHSType := "instrument", RHSConstant := float27000,
    RHSExchange := "NSE", RHSTradingSymbol := "INFY", RHSAttribute := "LastTradedPrice",
    Basket := none }

/-- Order parameters of one basket leg, with a GTT sub-record. -/
def sampleOrderParams : AlertOrderParams :=
  { TransactionType := utf8 "BUY", Product := utf8 "CNC", OrderType := utf8 "LIMIT",
    Validity := utf8 "DAY", ValidityTTL := 0, Quantity := 1, Price := float100_5,
    TriggerPrice := Float64.zero, DisclosedQuantity := 0, LastPrice := float100_5,
    Variety := utf8 "regular", Tags := some [utf8 "a<b"], Squareoff := Float64.zero,
    Stoploss := Float64.zero, TrailingStoploss := Float64.zero, IcebergLegs := 0,
    MarketProtection := Float64.zero, GTT := some ⟨float100_5, Float64.zero⟩ }

/-- A basket with one leg. -/
def sampleBasket : Basket :=
  { Name := utf8 "basket \"one\"", Type_ := [], Tags := none,
    Items := some [⟨[], utf8 "INFY", utf8 "NSE", 1, sampleOrderParams, 0, 408065⟩] }

/-- A simple alert to which a basket was supplied all the same. -/
def simpleWithBasketParams : AlertParams :=
  { testCreateParams with Basket := some sampleBasket }

/-- An ATO alert with a basket. -/
def atoParams : AlertParams :=
  { testCreateParams with Type_ := AlertTypeATO, Basket := some sampleBasket }

/-- An ATO alert whose basket holds a NaN price. -/
def nanPriceParams : AlertParams :=
  { testCreateParams with
    Type_ := AlertTypeATO
    Basket := some { sampleBasket with
      Items := some [⟨[], utf8 "INFY", utf8 "NSE", 1,
        { sampleOrderParams with Price := floatNaN }, 0, 408065⟩] } }

/-- A basket whose name is the single byte `0xFF`, which is not valid UTF-8. -/
def invalidNameBasket : Basket := { Name := [0xFF], Type_ := [], Tags := none, Items := none }

/-- An ATO alert whose basket has a name that is not valid UTF-8. -/
def invalidNameParams : AlertParams :=
  { testCreateParams with Type_ := AlertTypeATO, Basket := some invalidNameBasket }

/-- The document Go `json.Marshal` writes for `invalidNameBasket`. -/
def invalidNameDocument : String :=
  "\x7b\"name\":\"\\ufffd\",\"type\":\"\",\"tags\":null,\"items\":null\x7d"

/-- The document Go `json.Marshal` writes for `sampleBasket`. -/
def sampleBasketDocument : String :=
  "\x7b\"name\":\"basket \\\"one\\\"\",\"type\":\"\",\"tags\":null,\"items\":[\x7b\"type\":\"\"," ++
    "\"tradingsymbol\":\"INFY\",\"exchange\":\"NSE\",\"weight\":1,\"params\":\x7b\"transaction_type\":\"BUY\"," ++
    "\"product\":\"CNC\",\"order_type\":\"LIMIT\",\"validity\":\"DAY\",\"validity_ttl\":0," ++
    "\"quantity\":1,\"price\":100.5,\"trigger_price\":0,\"disclosed_quantity\":0," ++
    "\"last_price\":100.5,\"variety\":\"regular\",\"tags\":[\"a\\u003cb\"]," ++
    "\"squareoff\":0,\"stoploss\":0,\"trailing_stoploss\":0,\"iceberg_legs\":0," ++
    "\"market_protection\":0,\"gtt\":\x7b\"target\":100.5,\"stoploss\":0\x7d\x7d," ++
    "\"instrument_token\":408065\x7d]\x7d"

/-! ## Facts about `url.Values` -/

theorem Values.lookup_Set (v : Values) (k x k2 : String) :
    Values.lookup (Values.Set v k x) k2 =
      if k = k2 then some [x] else Values.lookup v k2 := by
  induction v with
  | nil => simp [Values.Set, Values.lookup]
  | cons hd tl ih =>
    obtain ⟨a, vs⟩ := hd
    by_cases hk : a = k
    · subst hk
      by_cases h2 : a = k2 <;> simp [Values.Set, Values.lookup, h2]
    · by_cases h2 : a = k2
      · subst h2
        simp [Values.Set, Values.lookup, hk, Ne.symm hk]
      · simp [Values.Set, Values.lookup, hk, h2, ih]

theorem Values.Has_Set (v : Values) (k x k2 : String) :
    Values.Has (Values.Set v k x) k2 = if k = k2 then true else Values.Has v k2 := by
  unfold Values.Has
  rw [Values.lookup_Set]
  split <;> simp

theorem Values.foldl_Add_uuid (us acc : List String) (u : String) :
    List.foldl (fun params uuid => Values.Add params "uuid" uuid) [("uuid", acc ++ [u])] us
      = [("uuid", acc ++ u :: us)] := by
  induction us generalizing acc u with
  | nil => simp
  | cons x xs ih =>
    simp only [List.foldl, Values.Add, if_true]
    rw [ih]
    simp

theorem sprintfS_URIAlert (uuid : String) :
    String.mk (sprintfS URIAlert.data uuid) = "/alerts/" ++ uuid := by
  apply String.ext
  simp [URIAlert, sprintfS]

/-! ## The shape of every outcome of `CreateAlert` and `ModifyAlert` -/

theorem CreateAlert_ends {Time : Type} (zeroTime : Time) (lib : StdLib) (c : Client)
    (p : AlertParams) :
    endsAsBuilt (CreateAlert zeroTime lib c p) lib c p MethodPost URIAlerts
      (Alert.zero zeroTime) := by
  unfold endsAsBuilt marshalFails Outcome.sentOnce
  by_cases hb : p.Type_ = AlertTypeATO ∧ p.Basket ≠ none
  · cases hm : lib.jsonMarshal p.Basket with
    | error e =>
      left
      simp [CreateAlert, scalarValues, hb, hm]
    | ok j =>
      right
      simp [CreateAlert, scalarValues, hb, hm]
  · right
    have hb2 : ¬ (p.Type_ = AlertTypeATO ∧ p.Basket ≠ none ∧
        ∃ e, lib.jsonMarshal p.Basket = .error e) := fun h => hb ⟨h.1, h.2.1⟩
    refine ⟨hb2, ?_, Or.inl ⟨hb, ?_⟩⟩ <;> simp [CreateAlert, scalarValues, hb]

theorem ModifyAlert_ends {Time : Type} (zeroTime : Time) (lib : StdLib) (c : Client)
    (uuid : String) (p : AlertParams) :
    endsAsBuilt (ModifyAlert zeroTime lib c uuid p) lib c p MethodPut ("/alerts/" ++ uuid)
      (Alert.zero zeroTime) := by
  unfold endsAsBuilt marshalFails Outcome.sentOnce
  by_cases hb : p.Type_ = AlertTypeATO ∧ p.Basket ≠ none
  · cases hm : lib.jsonMarshal p.Basket with
    | error e =>
      left
      simp [ModifyAlert, scalarValues, hb, hm]
    | ok j =>
      right
      simp [ModifyAlert, scalarValues, hb, hm, sprintfS_URIAlert]
  · right
    have hb2 : ¬ (p.Type_ = AlertTypeATO ∧ p.Basket ≠ none ∧
        ∃ e, lib.jsonMarshal p.Basket = .error e) := fun h => hb ⟨h.1, h.2.1⟩
    refine ⟨hb2, ?_, Or.inl ⟨hb, ?_⟩⟩ <;>
      simp [ModifyAlert, scalarValues, hb, sprintfS_URIAlert]

/-- Every request handed to the executor carries the form values built. -/
theorem endsAsBuilt_calls {α : Type} {o : Outcome α} {lib : StdLib} {c : Client}
    {p : AlertParams} {method uri : String} {target : α}
    (h : endsAsBuilt o lib c p method uri target) :
    (∀ r ∈ o.calls, r.params = o.values) ∧
      (¬ marshalFails lib p → o.sentOnce c method uri target) := by
  rcases h with ⟨hf, _, hc, _⟩ | ⟨hn, hs, _⟩
  · exact ⟨by simp [hc], fun hn => absurd hf hn⟩
  · refine ⟨?_, fun _ => hs⟩
    intro r hr
    rw [hs.1] at hr
    simp at hr
    simp [hr]

/-- A key other than `basket` has in the built form values the entry it has
among the scalar fields. -/
theorem endsAsBuilt_lookup {α : Type} {o : Outcome α} {lib : StdLib} {c : Client}
    {p : AlertParams} {method uri : String} {target : α}
    (h : endsAsBuilt o lib c p method uri target) (k : String) (hk : "basket" ≠ k) :
    o.values.lookup k = (scalarValues lib p).lookup k := by
  rcases h with ⟨_, hv, _, _⟩ | ⟨_, _, ⟨_, hv⟩ | ⟨_, _, j, _, hv⟩⟩
  · rw [hv]
  · rw [hv]
  · rw [hv, Values.lookup_Set, if_neg hk]

/-! ## Entries of the scalar form values -/

theorem scalarValues_seven (lib : StdLib) (p : AlertParams) :
    (scalarValues lib p).lookup "name" = some [p.Name] ∧
    (scalarValues lib p).lookup "type" = some [p.Type_] ∧
    (scalarValues lib p).lookup "lhs_exchange" = some [p.LHSExchange] ∧
    (scalarValues lib p).lookup "lhs_tradingsymbol" = some [p.LHSTradingSymbol] ∧
    (scalarValues lib p).lookup "lhs_attribute" = some [p.LHSAttribute] ∧
    (scalarValues lib p).lookup "operator" = some [p.Operator] ∧
    (scalarValues lib p).lookup "rhs_type" = some [p.RHSType] := by
  unfold scalarValues
  by_cases h1 : p.RHSType = "constant"
  · simp [h1, Values.lookup_Set, Values.lookup]
  · by_cases h2 : p.RHSType = "instrument"
    · simp [h2, Values.lookup_Set, Values.lookup]
    · simp [h1, h2, Values.lookup_Set, Values.lookup]

theorem scalarValues_constant (lib : StdLib) (p : AlertParams) (h : p.RHSType = "constant") :
    (scalarValues lib p).lookup "rhs_constant" = some [lib.sprintfV p.RHSConstant] ∧
    (scalarValues lib p).lookup "rhs_exchange" = none ∧
    (scalarValues lib p).lookup "rhs_tradingsymbol" = none ∧
    (scalarValues lib p).lookup "rhs_attribute" = none := by
  unfold scalarValues
  simp [h, Values.lookup_Set, Values.lookup]

theorem scalarValues_instrument (lib : StdLib) (p : AlertParams)
    (h : p.RHSType = "instrument") :
    (scalarValues lib p).lookup "rhs_constant" = none ∧
    (scalarValues lib p).lookup "rhs_exchange" = some [p.RHSExchange] ∧
    (scalarValues lib p).lookup "rhs_tradingsymbol" = some [p.RHSTradingSymbol] ∧
    (scalarValues lib p).lookup "rhs_attribute" = some [p.RHSAttribute] := by
  unfold scalarValues
  simp [h, Values.lookup_Set, Values.lookup]

theorem scalarValues_other (lib : StdLib) (p : AlertParams)
    (h1 : p.RHSType ≠ "constant") (h2 : p.RHSType ≠ "instrument") :
    (scalarValues lib p).lookup "rhs_constant" = none ∧
    (scalarValues lib p).lookup "rhs_exchange" = none ∧
    (scalarValues lib p).lookup "rhs_tradingsymbol" = none ∧
    (scalarValues lib p).lookup "rhs_attribute" = none := by
  unfold scalarValues
  simp [h1, h2, Values.lookup_Set, Values.lookup]

theorem scalarValues_basket (lib : StdLib) (p : AlertParams) :
    (scalarValues lib p).lookup "basket" = none := by
  unfold scalarValues
  by_cases h1 : p.RHSType = "constant"
  · simp [h1, Values.lookup_Set, Values.lookup]
  · by_cases h2 : p.RHSType = "instrument"
    · simp [h2, Values.lookup_Set, Values.lookup]
    · simp [h1, h2, Values.lookup_Set, Values.lookup]

/-! ## Facts about the JSON model: numbers -/

theorem digitChar_toNat (d : Nat) (h : d < 10) : (digitChar d).toNat = 48 + d := by
  interval_cases d <;> rfl

theorem isDigitC_digitChar (d : Nat) (h : d < 10) : isDigitC (digitChar d) = true := by
  interval_cases d <;> rfl

theorem natDigitsAux_append (fuel n : Nat) (acc : List Char) :
    natDigitsAux fuel n acc = natDigitsAux fuel n [] ++ acc := by
  induction fuel generalizing n acc with
  | zero => simp [natDigitsAux]
  | succ k ih =>
    unfold natDigitsAux
    split
    · simp
    · rw [ih, ih (n / 10) [digitChar (n % 10)]]
      simp

theorem digitsValue_append (xs ys : List Char) (acc : Nat) :
    digitsValue (xs ++ ys) acc = (digitsValue xs acc).bind (digitsValue ys) := by
  induction xs generalizing acc with
  | nil => simp [digitsValue]
  | cons c r ih =>
    simp only [List.cons_append, digitsValue]
    split
    · exact ih _
    · rfl

theorem digitsValue_digit (d acc : Nat) (h : d < 10) :
    digitsValue [digitChar d] acc = some (acc * 10 + d) := by
  simp [digitsValue, isDigitC_digitChar d h, digitChar_toNat d h]

theorem digitsValue_natDigitsAux (fuel n : Nat) (h : n < fuel) :
    digitsValue (natDigitsAux fuel n []) 0 = some n := by
  induction fuel generalizing n with
  | zero => omega
  | succ k ih =>
    unfold natDigitsAux
    split
    · rename_i hn
      rw [digitsValue_digit n 0 hn]
      simp
    · rename_i hn
      rw [natDigitsAux_append, digitsValue_append, ih (n / 10) (by omega)]
      simp only [Option.some_bind]
      rw [digitsValue_digit _ _ (Nat.mod_lt n (by omega))]
      congr 1
      omega

theorem natDigitsAux_all_digits (fuel n : Nat) (acc : List Char)
    (hacc : ∀ c ∈ acc, isDigitC c = true) :
    ∀ c ∈ natDigitsAux fuel n acc, isDigitC c = true := by
  induction fuel generalizing n acc with
  | zero => simpa [natDigitsAux] using hacc
  | succ k ih =>
    unfold natDigitsAux
    split
    · rename_i hn
      intro c hc
      rcases List.mem_cons.mp hc with rfl | hc
      · exact isDigitC_digitChar n hn
      · exact hacc c hc
    · apply ih
      intro c hc
      rcases List.mem_cons.mp hc with rfl | hc
      · exact isDigitC_digitChar _ (Nat.mod_lt n (by omega))
      · exact hacc c hc

theorem natDigitsAux_head (fuel n : Nat) (acc : List Char) (h : n < fuel) (hn : 0 < n) :
    ∃ k r, 1 ≤ k ∧ k < 10 ∧ natDigitsAux fuel n acc = digitChar k :: r := by
  induction fuel generalizing n acc with
  | zero => omega
  | succ f ih =>
    unfold natDigitsAux
    split
    · rename_i h10
      exact ⟨n, acc, hn, h10, rfl⟩
    · rename_i h10
      exact ih (n / 10) _ (by omega) (by omega)

theorem dropWhile_all {p : Char → Bool} (l : List Char) (h : ∀ c ∈ l, p c = true) :
    l.dropWhile p = [] := by
  induction l with
  | nil => rfl
  | cons c r ih =>
    have hc := h c (List.mem_cons_self c r)
    simp only [List.dropWhile, hc]
    exact ih (fun x hx => h x (List.mem_cons_of_mem c hx))

theorem validInteger_natDigits (n : Nat) : validInteger (natDigits n) = true := by
  rcases Nat.eq_zero_or_pos n with h0 | hpos
  · subst h0
    rfl
  · obtain ⟨k, r, hk1, hk2, hkr⟩ := natDigitsAux_head (n + 1) n [] (by omega) hpos
    have hall := natDigitsAux_all_digits (n + 1) n [] (by simp)
    unfold natDigits
    rw [hkr] at hall ⊢
    have hr : r.dropWhile isDigitC = [] :=
      dropWhile_all r (fun c hc => hall c (List.mem_cons_of_mem _ hc))
    unfold validInteger
    simp only [hr]
    interval_cases k <;> rfl

theorem natDigits_head_ne_minus (n : Nat) :
    ∃ c r, natDigits n = c :: r ∧ c ≠ '-' ∧ isDigitC c = true := by
  have hall := natDigitsAux_all_digits (n + 1) n [] (by simp)
  unfold natDigits at *
  cases hd : natDigitsAux (n + 1) n [] with
  | nil =>
    have := digitsValue_natDigitsAux (n + 1) n (by omega)
    rw [hd] at this
    rcases Nat.eq_zero_or_pos n with h0 | hpos
    · subst h0
      simp [natDigitsAux] at hd
    · obtain ⟨k, r, _, _, hkr⟩ := natDigitsAux_head (n + 1) n [] (by omega) hpos
      rw [hd] at hkr
      cases hkr
  | cons c r =>
    rw [hd] at hall
    have hc := hall c (List.mem_cons_self c r)
    refine ⟨c, r, rfl, ?_, hc⟩
    intro h
    subst h
    revert hc
    decide

theorem isValidNumber_formatInt (i : Int) : isValidNumber (formatInt i) = true := by
  unfold formatInt
  split
  · simp [isValidNumber, validInteger_natDigits]
  · obtain ⟨c, r, hcr, hne, _⟩ := natDigits_head_ne_minus i.natAbs
    have hv := validInteger_natDigits i.natAbs
    rw [hcr] at hv ⊢
    simp [isValidNumber, hne, hv]

theorem parseInt_formatInt (i : Int) (h : fitsInt i = true) :
    parseInt (formatInt i) = some i := by
  simp only [fitsInt, Bool.and_eq_true, decide_eq_true_eq] at h
  have hval := digitsValue_natDigitsAux (i.natAbs + 1) i.natAbs (by omega)
  obtain ⟨c, r, hcr, hne, _⟩ := natDigits_head_ne_minus i.natAbs
  unfold formatInt
  split
  · rename_i hneg
    unfold parseInt
    simp only [if_true]
    rw [hcr]
    simp only []
    rw [← hcr]
    unfold natDigits
    rw [hval]
    have h1 : i.natAbs ≤ 2 ^ 63 := by omega
    simp only [h1, if_true]
    congr 1
    omega
  · rename_i hneg
    rw [hcr]
    unfold parseInt
    simp only [hne, if_false]
    rw [← hcr]
    unfold natDigits
    rw [hval]
    have h1 : i.natAbs < 2 ^ 63 := by omega
    simp only [h1, if_true]
    congr 1
    omega

theorem isNumChar_of_isDigitC (c : Char) (h : isDigitC c = true) : isNumChar c = true := by
  simp [isNumChar, h]

theorem all_of_dropWhile_isEmpty {p : Char → Bool} (l : List Char)
    (h : (l.dropWhile p).isEmpty = true) : ∀ c ∈ l, p c = true := by
  induction l with
  | nil => simp
  | cons a r ih =>
    by_cases ha : p a = true
    · simp only [List.dropWhile, ha] at h
      intro c hc
      rcases List.mem_cons.mp hc with rfl | hc
      · exact ha
      · exact ih h c hc
    · simp [List.dropWhile, ha] at h

theorem numChars_of_dropWhile (l : List Char)
    (h : ∀ c ∈ l.dropWhile isDigitC, isNumChar c = true) : ∀ c ∈ l, isNumChar c = true := by
  induction l with
  | nil => simp
  | cons a r ih =>
    by_cases ha : isDigitC a = true
    · simp only [List.dropWhile, ha] at h
      intro c hc
      rcases List.mem_cons.mp hc with rfl | hc
      · exact isNumChar_of_isDigitC _ ha
      · exact ih h c hc
    · simp only [List.dropWhile, ha] at h
      exact h

theorem numChars_of_validExponent (s : List Char) (h : validExponent s = true) :
    ∀ c ∈ s, isNumChar c = true := by
  match s, h with
  | [], _ => simp
  | [_], h => simp [validExponent] at h
  | e :: x :: r, h =>
    unfold validExponent at h
    by_cases he : (e = 'e' || e = 'E') = true
    · have hec : isNumChar e = true := by
        simp only [Bool.or_eq_true, decide_eq_true_eq] at he
        rcases he with rfl | rfl <;> rfl
      simp only [he, if_true] at h
      by_cases hx : (x = '+' || x = '-') = true
      · have hxc : isNumChar x = true := by
          simp only [Bool.or_eq_true, decide_eq_true_eq] at hx
          rcases hx with rfl | rfl <;> rfl
        simp only [hx, if_true] at h
        cases r with
        | nil => simp at h
        | cons y r2 =>
          have hall := all_of_dropWhile_isEmpty _ h
          intro c hc
          rcases List.mem_cons.mp hc with rfl | hc
          · exact hec
          · rcases List.mem_cons.mp hc with rfl | hc
            · exact hxc
            · exact isNumChar_of_isDigitC _ (hall c hc)
      · simp only [hx] at h
        have hall := all_of_dropWhile_isEmpty _ h
        intro c hc
        rcases List.mem_cons.mp hc with rfl | hc
        · exact hec
        · exact isNumChar_of_isDigitC _ (hall c hc)
    · simp [he] at h

theorem numChars_of_validFraction (s : List Char) (h : validFraction s = true) :
    ∀ c ∈ s, isNumChar c = true := by
  match s, h with
  | [], h => simp
  | [a], h => exact numChars_of_validExponent _ (by simpa [validFraction] using h)
  | p :: d :: r, h =>
    unfold validFraction at h
    by_cases hp : (p = '.' && isDigitC d) = true
    · simp only [hp, if_true] at h
      have hr := numChars_of_dropWhile r (numChars_of_validExponent _ h)
      simp only [Bool.and_eq_true, decide_eq_true_eq] at hp
      intro c hc
      rcases List.mem_cons.mp hc with rfl | hc
      · rw [hp.1]; rfl
      · rcases List.mem_cons.mp hc with rfl | hc
        · exact isNumChar_of_isDigitC _ hp.2
        · exact hr c hc
    · simp only [hp] at h
      exact numChars_of_validExponent _ h

theorem numChars_of_validInteger (s : List Char) (h : validInteger s = true) :
    (∀ c ∈ s, isNumChar c = true) ∧ ∃ c r, s = c :: r ∧ isDigitC c = true := by
  match s, h with
  | [], h => simp [validInteger] at h
  | a :: r, h =>
    unfold validInteger at h
    by_cases h0 : a = '0'
    · simp only [h0, if_true] at h
      subst h0
      refine ⟨?_, _, _, rfl, rfl⟩
      intro c hc
      rcases List.mem_cons.mp hc with rfl | hc
      · rfl
      · exact numChars_of_validFraction _ h c hc
    · simp only [h0, if_false] at h
      by_cases h19 : (decide ('1' ≤ a) && decide (a ≤ '9')) = true
      · simp only [h19, if_true] at h
        have hd : isDigitC a = true := by
          simp only [Bool.and_eq_true, decide_eq_true_eq] at h19
          simp only [isDigitC, Bool.and_eq_true, decide_eq_true_eq]
          exact ⟨le_trans (by decide) h19.1, h19.2⟩
        refine ⟨?_, _, _, rfl, hd⟩
        intro c hc
        rcases List.mem_cons.mp hc with rfl | hc
        · exact isNumChar_of_isDigitC _ hd
        · exact numChars_of_dropWhile r (numChars_of_validFraction _ h) c hc
      · simp [h19] at h

/-- A valid number literal is made of number characters and starts with a
minus sign or a digit. -/
theorem numChars_of_isValidNumber (s : List Char) (h : isValidNumber s = true) :
    (∀ c ∈ s, isNumChar c = true) ∧
      ∃ c r, s = c :: r ∧ (c = '-' || isDigitC c) = true := by
  match s, h with
  | [], h => simp [isValidNumber] at h
  | a :: r, h =>
    unfold isValidNumber at h
    by_cases hm : a = '-'
    · simp only [hm, if_true] at h
      subst hm
      refine ⟨?_, _, _, rfl, rfl⟩
      intro c hc
      rcases List.mem_cons.mp hc with rfl | hc
      · rfl
      · exact (numChars_of_validInteger _ h).1 c hc
    · simp only [hm, if_false] at h
      obtain ⟨hall, c, r2, hcr, hd⟩ := numChars_of_validInteger _ h
      refine ⟨hall, a, r, rfl, ?_⟩
      cases hcr
      simp [hd]

/-! ## Facts about the JSON model: strings -/

theorem hexVal_hexChar (d : Nat) (h : d < 16) : hexVal (hexChar d) = some d := by
  interval_cases d <;> rfl

theorem char_eq_of_toNat {c d : Char} (h : c.toNat = d.toNat) : c = d := by
  apply Char.ext
  apply UInt32.ext
  exact h

theorem parseStringBody_literal (fuel : Nat) (c : Char) (tail acc : List Char)
    (h1 : c ≠ quoteC) (h2 : c ≠ backslashC) (h3 : 32 ≤ c.toNat) :
    parseStringBody (fuel + 1) (c :: tail) acc = parseStringBody fuel tail (c :: acc) := by
  have h3n : ¬ c.toNat < 32 := by omega
  simp [parseStringBody, h1, h2, h3n]

theorem parseStringBody_simple (fuel : Nat) (e x : Char) (tail acc : List Char)
    (he : e ≠ 'u') (hx : unescapeSimple e = some x) :
    parseStringBody (fuel + 1) (backslashC :: e :: tail) acc
      = parseStringBody fuel tail (x :: acc) := by
  have hb : backslashC ≠ quoteC := by decide
  simp [parseStringBody, hb, he, hx]

theorem parseStringBody_hex (fuel n : Nat) (a b c d : Char) (tail acc : List Char)
    (hn : hex4 a b c d = some n) (hs : n < 0xD800) :
    parseStringBody (fuel + 1) (backslashC :: 'u' :: a :: b :: c :: d :: tail) acc
      = parseStringBody fuel tail (Char.ofNat n :: acc) := by
  have hb : backslashC ≠ quoteC := by decide
  have hs2 : ¬ (0xD800 ≤ n ∧ n < 0xE000) := by omega
  simp only [parseStringBody, hb, if_false, if_true, hn, hs2]

theorem hex4_low (v : Nat) (h : v < 256) :
    hex4 '0' '0' (hexChar (v / 16)) (hexChar (v % 16)) = some v := by
  have h1 : hexVal '0' = some 0 := rfl
  unfold hex4
  rw [h1, hexVal_hexChar _ (by omega), hexVal_hexChar _ (Nat.mod_lt _ (by omega))]
  simp only [Option.some.injEq]
  omega

theorem hex4_202 (v : Nat) (h : v = 0x2028 ∨ v = 0x2029) :
    hex4 '2' '0' '2' (hexChar (v % 16)) = some v := by
  rcases h with rfl | rfl <;> rfl

theorem unescapeSimple_self (c : Char) (h : (c = backslashC || c = quoteC) = true) :
    unescapeSimple c = some c ∧ c ≠ 'u' := by
  simp only [Bool.or_eq_true, decide_eq_true_eq] at h
  rcases h with rfl | rfl <;> exact ⟨rfl, by decide⟩

/-- Reading back what `appendString` wrote for one character takes one step
and yields the character. -/
theorem parseStringBody_escapeChar (fuel : Nat) (c : Char) (tail acc : List Char) :
    parseStringBody (fuel + 1) (escapeChar c ++ tail) acc
      = parseStringBody fuel tail (c :: acc) := by
  have hc : Char.ofNat c.toNat = c := Char.ofNat_toNat c
  unfold escapeChar
  by_cases h128 : c.toNat < 128
  · simp only [h128, if_true]
    by_cases hsafe : htmlSafe c = true
    · simp only [hsafe, if_true, List.singleton_append]
      simp only [htmlSafe, Bool.and_eq_true, decide_eq_true_eq, bne_iff_ne, ne_eq] at hsafe
      exact parseStringBody_literal fuel c tail acc hsafe.1.1.1.1.2 hsafe.1.1.1.2
        hsafe.1.1.1.1.1.1
    · simp only [hsafe]
      by_cases hq : (c = backslashC || c = quoteC) = true
      · simp only [hq, if_true]
        obtain ⟨hx, hu⟩ := unescapeSimple_self c hq
        exact parseStringBody_simple fuel c c tail acc hu hx
      · simp only [hq]
        by_cases h8 : c.toNat = 8
        · simp only [h8, if_true]
          rw [← hc, h8]
          exact parseStringBody_simple fuel 'b' _ tail acc (by decide) rfl
        · simp only [h8, if_false]
          by_cases h12 : c.toNat = 12
          · simp only [h12, if_true]
            rw [← hc, h12]
            exact parseStringBody_simple fuel 'f' _ tail acc (by decide) rfl
          · simp only [h12, if_false]
            by_cases h10 : c.toNat = 10
            · simp only [h10, if_true]
              rw [← hc, h10]
              exact parseStringBody_simple fuel 'n' _ tail acc (by decide) rfl
            · simp only [h10, if_false]
              by_cases h13 : c.toNat = 13
              · simp only [h13, if_true]
                rw [← hc, h13]
                exact parseStringBody_simple fuel 'r' _ tail acc (by decide) rfl
              · simp only [h13, if_false]
                by_cases h9 : c.toNat = 9
                · simp only [h9, if_true]
                  rw [← hc, h9]
                  exact parseStringBody_simple fuel 't' _ tail acc (by decide) rfl
                · simp only [h9, if_false]
                  have := parseStringBody_hex fuel c.toNat '0' '0' (hexChar (c.toNat / 16))
                    (hexChar (c.toNat % 16)) tail acc (hex4_low _ (by omega)) (by omega)
                  rw [hc] at this
                  exact this
  · simp only [h128, if_false]
    by_cases hls : (c.toNat = 0x2028 || c.toNat = 0x2029) = true
    · simp only [hls, if_true]
      have hv : c.toNat = 0x2028 ∨ c.toNat = 0x2029 := by
        simpa only [Bool.or_eq_true, decide_eq_true_eq] using hls
      have := parseStringBody_hex fuel c.toNat '2' '0' '2' (hexChar (c.toNat % 16)) tail acc
        (hex4_202 _ hv) (by omega)
      rw [hc] at this
      exact this
    · simp only [hls]
      have h1 : c ≠ quoteC := by
        intro h
        rw [h] at h128
        exact h128 (by decide)
      have h2 : c ≠ backslashC := by
        intro h
        rw [h] at h128
        exact h128 (by decide)
      exact parseStringBody_literal fuel c tail acc h1 h2 (by omega)

/-- Reading back the body of a string written by `appendString`. -/
theorem parseStringBody_escape (s : List Char) (fuel : Nat) (rest acc : List Char)
    (h : s.length < fuel) :
    parseStringBody fuel (escape s ++ quoteC :: rest) acc = some (acc.reverse ++ s, rest) := by
  induction s generalizing fuel acc with
  | nil =>
    cases fuel with
    | zero => simp at h
    | succ k => simp [escape, parseStringBody]
  | cons c r ih =>
    cases fuel with
    | zero => simp at h
    | succ k =>
      simp only [escape, List.append_assoc]
      rw [parseStringBody_escapeChar, ih k (c :: acc) (by simpa using h)]
      simp

theorem escapeChar_length (c : Char) : 1 ≤ (escapeChar c).length := by
  unfold escapeChar
  split_ifs <;> simp

theorem escape_length (s : List Char) : s.length ≤ (escape s).length := by
  induction s with
  | nil => simp [escape]
  | cons c r ih =>
    have := escapeChar_length c
    simp only [escape, List.length_cons, List.length_append]
    omega

/-! ## Facts about the JSON model: UTF-8 -/

theorem toNat_ofNat_of_valid (n : Nat) (h : n < 0xD800 ∨ (0xDFFF < n ∧ n < 0x110000)) :
    (Char.ofNat n).toNat = n := by
  have hv : n.isValidChar := h
  simp only [Char.ofNat, hv, dite_true]
  simp [Char.ofNatAux, Char.toNat, UInt32.toNat]


theorem byte_eq (b : Byte) (n : Nat) (h : n = b.val) : byte n = b := by
  apply Fin.ext
  simp only [byte]
  have := b.isLt
  omega

/-- What `utf8.DecodeRuneInString` decodes is what `utf8.AppendRune` writes. -/
theorem decodeRune_eq (bs rest : GoString) (c : Char) (h : decodeRune bs = some (c, rest)) :
    bs = utf8Char c ++ rest := by
  match bs, h with
  | b0 :: tl, h =>
    have hb0 := b0.isLt
    unfold decodeRune at h
    by_cases h1 : b0.val < 0x80
    · simp only [h1, if_true, Option.some.injEq, Prod.mk.injEq] at h
      obtain ⟨rfl, rfl⟩ := h
      have hn := toNat_ofNat_of_valid b0.val (by omega)
      unfold utf8Char
      simp only [hn, h1, if_true, List.singleton_append, List.cons.injEq, and_true]
      exact (byte_eq b0 _ rfl).symm
    · simp only [h1, if_false] at h
      by_cases h2 : b0.val < 0xC2
      · simp [h2] at h
      · simp only [h2, if_false] at h
        by_cases h3 : b0.val < 0xE0
        · simp only [h3, if_true] at h
          match tl, h with
          | b1 :: r1, h =>
            have hb1 := b1.isLt
            by_cases hr : inRange 0x80 0xBF b1 = true
            · simp only [hr, if_true, Option.some.injEq, Prod.mk.injEq] at h
              obtain ⟨rfl, rfl⟩ := h
              simp only [inRange, Bool.and_eq_true, decide_eq_true_eq] at hr
              have hn := toNat_ofNat_of_valid (b0.val % 32 * 64 + b1.val % 64) (by omega)
              unfold utf8Char
              have c1 : ¬ (b0.val % 32 * 64 + b1.val % 64 < 0x80) := by omega
              have c2 : b0.val % 32 * 64 + b1.val % 64 < 0x800 := by omega
              simp only [hn, c1, c2, if_false, if_true, List.cons_append, List.nil_append,
                List.cons.injEq, and_true]
              exact ⟨(byte_eq b0 _ (by omega)).symm, (byte_eq b1 _ (by omega)).symm⟩
            · simp [hr] at h
        · simp only [h3, if_false] at h
          by_cases h4 : b0.val < 0xF0
          · simp only [h4, if_true] at h
            match tl, h with
            | b1 :: b2 :: r2, h =>
              have hb1 := b1.isLt
              have hb2 := b2.isLt
              by_cases hr : (inRange (if b0.val = 0xE0 then 0xA0 else 0x80)
                  (if b0.val = 0xED then 0x9F else 0xBF) b1 && inRange 0x80 0xBF b2) = true
              · simp only [hr, if_true, Option.some.injEq, Prod.mk.injEq] at h
                obtain ⟨rfl, rfl⟩ := h
                simp only [inRange, Bool.and_eq_true, decide_eq_true_eq] at hr
                obtain ⟨⟨hlo, hhi⟩, hl2, hh2⟩ := hr
                have hlo2 : 0x80 ≤ b1.val ∧ (b0.val = 0xE0 → 0xA0 ≤ b1.val) := by
                  split at hlo <;> omega
                have hhi2 : b1.val ≤ 0xBF ∧ (b0.val = 0xED → b1.val ≤ 0x9F) := by
                  split at hhi <;> omega
                have hn := toNat_ofNat_of_valid
                  (b0.val % 16 * 4096 + b1.val % 64 * 64 + b2.val % 64) (by omega)
                unfold utf8Char
                have c1 : ¬ (b0.val % 16 * 4096 + b1.val % 64 * 64 + b2.val % 64 < 0x80) := by
                  omega
                have c2 : ¬ (b0.val % 16 * 4096 + b1.val % 64 * 64 + b2.val % 64 < 0x800) := by
                  omega
                have c3 : b0.val % 16 * 4096 + b1.val % 64 * 64 + b2.val % 64 < 0x10000 := by
                  omega
                simp only [hn, c1, c2, c3, if_false, if_true, List.cons_append, List.nil_append,
                  List.cons.injEq, and_true]
                exact ⟨(byte_eq b0 _ (by omega)).symm, (byte_eq b1 _ (by omega)).symm,
                  (byte_eq b2 _ (by omega)).symm⟩
              · simp [hr] at h
          · simp only [h4, if_false] at h
            by_cases h5 : b0.val < 0xF5
            · simp only [h5, if_true] at h
              match tl, h with
              | b1 :: b2 :: b3 :: r3, h =>
                have hb1 := b1.isLt
                have hb2 := b2.isLt
                have hb3 := b3.isLt
                by_cases hr : (inRange (if b0.val = 0xF0 then 0x90 else 0x80)
                    (if b0.val = 0xF4 then 0x8F else 0xBF) b1 && inRange 0x80 0xBF b2
                    && inRange 0x80 0xBF b3) = true
                · simp only [hr, if_true, Option.some.injEq, Prod.mk.injEq] at h
                  obtain ⟨rfl, rfl⟩ := h
                  simp only [inRange, Bool.and_eq_true, decide_eq_true_eq] at hr
                  obtain ⟨⟨⟨hlo, hhi⟩, hl2, hh2⟩, hl3, hh3⟩ := hr
                  have hlo2 : 0x80 ≤ b1.val ∧ (b0.val = 0xF0 → 0x90 ≤ b1.val) := by
                    split at hlo <;> omega
                  have hhi2 : b1.val ≤ 0xBF ∧ (b0.val = 0xF4 → b1.val ≤ 0x8F) := by
                    split at hhi <;> omega
                  have hn := toNat_ofNat_of_valid
                    (b0.val % 8 * 262144 + b1.val % 64 * 4096 + b2.val % 64 * 64 + b3.val % 64)
                    (by omega)
                  unfold utf8Char
                  have c1 : ¬ (b0.val % 8 * 262144 + b1.val % 64 * 4096 + b2.val % 64 * 64
                      + b3.val % 64 < 0x80) := by omega
                  have c2 : ¬ (b0.val % 8 * 262144 + b1.val % 64 * 4096 + b2.val % 64 * 64
                      + b3.val % 64 < 0x800) := by omega
                  have c3 : ¬ (b0.val % 8 * 262144 + b1.val % 64 * 4096 + b2.val % 64 * 64
                      + b3.val % 64 < 0x10000) := by omega
                  simp only [hn, c1, c2, c3, if_false, List.cons_append, List.nil_append,
                    List.cons.injEq, and_true]
                  exact ⟨(byte_eq b0 _ (by omega)).symm, (byte_eq b1 _ (by omega)).symm,
                    (byte_eq b2 _ (by omega)).symm, (byte_eq b3 _ (by omega)).symm⟩
                · simp [hr] at h
            · simp [h5] at h

theorem utf8Char_ne_nil (c : Char) : utf8Char c ≠ [] := by
  unfold utf8Char
  split_ifs <;> simp

theorem utf8Char_ascii (b : Byte) (h : b.val < 0x80) : utf8Char (Char.ofNat b.val) = [b] := by
  have hn := toNat_ofNat_of_valid b.val (by omega)
  unfold utf8Char
  simp only [hn, h, if_true, List.cons.injEq, and_true]
  exact byte_eq b _ rfl

/-- The steps of `appendString` over a valid string are its characters, and
their UTF-8 bytes are the string. -/
theorem scanString_valid (fuel : Nat) (s : GoString) (hf : s.length ≤ fuel)
    (hv : (scanString fuel s).all (fun i => i != .invalid) = true) :
    ∃ cs : List Char, scanString fuel s = cs.map StrItem.rune ∧ cs.flatMap utf8Char = s := by
  induction fuel generalizing s with
  | zero =>
    have : s = [] := List.length_eq_zero.mp (by omega)
    subst this
    exact ⟨[], rfl, rfl⟩
  | succ k ih =>
    cases s with
    | nil => exact ⟨[], rfl, rfl⟩
    | cons b rest =>
      simp only [List.length_cons] at hf
      unfold scanString at hv ⊢
      by_cases ha : b.val < 0x80
      · simp only [ha, if_true, List.all_cons, Bool.and_eq_true] at hv ⊢
        obtain ⟨cs, hcs, hbytes⟩ := ih rest (by omega) hv.2
        refine ⟨Char.ofNat b.val :: cs, by simp [hcs], ?_⟩
        simp [List.flatMap_cons, utf8Char_ascii b ha, hbytes]
      · simp only [ha, if_false] at hv ⊢
        cases hd : decodeRune (b :: rest) with
        | none => simp [hd] at hv
        | some p =>
          obtain ⟨c, rest2⟩ := p
          simp only [hd, List.all_cons, Bool.and_eq_true] at hv ⊢
          have heq := decodeRune_eq _ _ _ hd
          have hlen : rest2.length ≤ k := by
            have h1 := congrArg List.length heq
            have h2 : 0 < (utf8Char c).length := List.length_pos.mpr (utf8Char_ne_nil c)
            simp only [List.length_cons, List.length_append] at h1
            omega
          obtain ⟨cs, hcs, hbytes⟩ := ih rest2 hlen hv.2
          refine ⟨c :: cs, by simp [hcs], ?_⟩
          simp [List.flatMap_cons, hbytes, heq]

theorem encodeString_valid (s : GoString) (h : utf8Valid s = true) :
    ∃ cs : List Char, encodeString s = .str (cs.map StrItem.rune) ∧
      cs.flatMap utf8Char = s := by
  obtain ⟨cs, hcs, hbytes⟩ := scanString_valid s.length s (Nat.le_refl _) h
  exact ⟨cs, by simp [encodeString, hcs], hbytes⟩

theorem escapeItems_runes (cs : List Char) : escapeItems (cs.map StrItem.rune) = escape cs := by
  induction cs with
  | nil => rfl
  | cons c r ih => simp [escapeItems, escapeItem, escape, ih]

theorem flatMap_itemBytes_runes (cs : List Char) :
    (cs.map StrItem.rune).flatMap itemBytes = cs.flatMap utf8Char := by
  induction cs with
  | nil => rfl
  | cons c r ih => simp [List.flatMap_cons, itemBytes, ih]

/-! ## Facts about the JSON model: documents -/

theorem skipWS_cons (c : Char) (r : List Char) (h : isWS c = false) :
    skipWS (c :: r) = c :: r := by
  simp [skipWS, h]

theorem takeWhile_append_ends (l rest : List Char) (h : ∀ c ∈ l, isNumChar c = true)
    (hr : endsNumber rest = true) : (l ++ rest).takeWhile isNumChar = l := by
  induction l with
  | nil =>
    cases rest with
    | nil => rfl
    | cons c r =>
      simp only [endsNumber, Bool.not_eq_true'] at hr
      simp [List.takeWhile, hr]
  | cons a r ih =>
    have ha := h a (List.mem_cons_self a r)
    simp only [List.cons_append, List.takeWhile, ha]
    exact congrArg (a :: ·) (ih (fun c hc => h c (List.mem_cons_of_mem a hc)))

theorem dropWhile_append_ends (l rest : List Char) (h : ∀ c ∈ l, isNumChar c = true)
    (hr : endsNumber rest = true) : (l ++ rest).dropWhile isNumChar = rest := by
  induction l with
  | nil =>
    cases rest with
    | nil => rfl
    | cons c r =>
      simp only [endsNumber, Bool.not_eq_true'] at hr
      simp [List.dropWhile, hr]
  | cons a r ih =>
    have ha := h a (List.mem_cons_self a r)
    simp only [List.cons_append, List.dropWhile, ha]
    exact ih (fun c hc => h c (List.mem_cons_of_mem a hc))

/-- The first character of a number literal is neither white space nor the
start of another kind of value. -/
theorem numberStart_facts (c : Char) (h : (c = '-' || isDigitC c) = true) :
    isWS c = false ∧ c ≠ quoteC ∧ c ≠ '[' ∧ c ≠ lbraceC ∧ c ≠ ']' ∧ c ≠ rbraceC := by
  simp only [Bool.or_eq_true, decide_eq_true_eq] at h
  rcases h with rfl | h
  · exact ⟨rfl, by decide, by decide, by decide, by decide, by decide⟩
  · simp only [isDigitC, Bool.and_eq_true, decide_eq_true_eq] at h
    have h1 : 48 ≤ c.toNat := h.1
    have h2 : c.toNat ≤ 57 := h.2
    have hne : ∀ d : Char, (d.toNat < 48 ∨ 57 < d.toNat) → c ≠ d := by
      intro d hd hcd
      rw [hcd] at h1 h2
      omega
    refine ⟨?_, hne _ (by decide), hne _ (by decide), hne _ (by decide), hne _ (by decide),
      hne _ (by decide)⟩
    simp only [isWS, Bool.or_eq_false_iff, decide_eq_false_iff_not]
    exact ⟨⟨⟨hne _ (by decide), hne _ (by decide)⟩, hne _ (by decide)⟩, hne _ (by decide)⟩

/-- The text of a well-formed value starts with a character that is neither
white space nor a closing bracket or brace. -/
theorem render_head (j : JSON) (h : j.WF) :
    ∃ c r, render j = c :: r ∧ isWS c = false ∧ c ≠ ']' ∧ c ≠ rbraceC := by
  cases h with
  | null => exact ⟨'n', _, rfl, rfl, by decide, by decide⟩
  | bool b =>
    cases b
    · exact ⟨'f', _, rfl, rfl, by decide, by decide⟩
    · exact ⟨'t', _, rfl, rfl, by decide, by decide⟩
  | num lit hv =>
    obtain ⟨_, c, r, hcr, hc⟩ := numChars_of_isValidNumber lit hv
    obtain ⟨h1, _, _, _, h5, h6⟩ := numberStart_facts c hc
    exact ⟨c, r, by simp [render, hcr], h1, h5, h6⟩
  | str s => exact ⟨quoteC, _, rfl, rfl, by decide, by decide⟩
  | arr items _ => exact ⟨'[', _, rfl, rfl, by decide, by decide⟩
  | obj members _ => exact ⟨lbraceC, _, rfl, rfl, by decide, by decide⟩

theorem parseValue_null (k : Nat) (rest : List Char) :
    parseValue (k + 1) ('n' :: 'u' :: 'l' :: 'l' :: rest) = some (.null, rest) := by
  rfl

theorem parseValue_true (k : Nat) (rest : List Char) :
    parseValue (k + 1) ('t' :: 'r' :: 'u' :: 'e' :: rest) = some (.bool true, rest) := by
  rfl

theorem parseValue_false (k : Nat) (rest : List Char) :
    parseValue (k + 1) ('f' :: 'a' :: 'l' :: 's' :: 'e' :: rest) = some (.bool false, rest) := by
  rfl

theorem parseValue_num (k : Nat) (lit rest : List Char) (hv : isValidNumber lit = true)
    (hr : endsNumber rest = true) :
    parseValue (k + 1) (lit ++ rest) = some (.num lit, rest) := by
  obtain ⟨hall, c, r, hcr, hc⟩ := numChars_of_isValidNumber lit hv
  obtain ⟨h1, h2, h3, h4, _, _⟩ := numberStart_facts c hc
  have ht := takeWhile_append_ends lit rest hall hr
  have hd := dropWhile_append_ends lit rest hall hr
  subst hcr
  rw [parseValue]
  simp only [List.cons_append] at ht hd ⊢
  rw [skipWS_cons _ _ h1]
  simp only [h2, h3, h4, if_false, hc, if_true, ht, hd, hv]

theorem parseValue_str (k : Nat) (s rest : List Char) (h : s.length < k) :
    parseValue (k + 1) (quoteC :: (escape s ++ quoteC :: rest))
      = some (.str (s.map StrItem.rune), rest) := by
  rw [parseValue, skipWS_cons _ _ (by rfl)]
  simp only [if_true, parseStringBody_escape s k rest [] h]
  rfl

theorem renderItems_single (x : JSON) : renderItems [x] = render x := by
  rw [renderItems]

theorem renderItems_cons_cons (x y : JSON) (tl : List JSON) :
    renderItems (x :: y :: tl) = render x ++ ',' :: renderItems (y :: tl) := by
  rw [renderItems]

theorem parseElements_render (items : List JSON) (hne : items ≠ [])
    (ih : ∀ x ∈ items, ReadsBack x) (fuel : Nat) (rest : List Char)
    (hf : (renderItems items).length + 1 < fuel) :
    parseElements fuel (renderItems items ++ ']' :: rest) = some (items, rest) := by
  induction items generalizing fuel with
  | nil => exact absurd rfl hne
  | cons x tl ihl =>
    cases fuel with
    | zero => omega
    | succ k =>
      have hx := ih x (List.mem_cons_self x tl)
      cases tl with
      | nil =>
        rw [renderItems_single] at hf ⊢
        rw [parseElements, hx k (']' :: rest) (by omega) rfl]
        rfl
      | cons y tl2 =>
        rw [renderItems_cons_cons] at hf ⊢
        simp only [List.length_append, List.length_cons] at hf
        have hrec := ihl (by simp) (fun z hz => ih z (List.mem_cons_of_mem x hz)) k
          (by omega)
        rw [List.append_assoc, List.cons_append, parseElements,
          hx k (',' :: (renderItems (y :: tl2) ++ ']' :: rest)) (by omega) rfl]
        simp only [skipWS_cons ',' _ rfl, if_true]
        rw [hrec]

theorem parseValue_arr (items : List JSON) (hwf : ∀ x ∈ items, x.WF)
    (ih : ∀ x ∈ items, ReadsBack x) (k : Nat) (rest : List Char)
    (hf : (renderItems items).length + 1 < k) :
    parseValue (k + 1) ('[' :: (renderItems items ++ ']' :: rest))
      = some (.arr items, rest) := by
  cases items with
  | nil => rfl
  | cons x tl =>
    have hpe := parseElements_render (x :: tl) (by simp) ih k rest hf
    obtain ⟨c, r, hcr, hws, hnb, _⟩ := render_head x (hwf x (List.mem_cons_self x tl))
    have hstart : ∃ r2, renderItems (x :: tl) ++ ']' :: rest = c :: r2 := by
      cases tl with
      | nil => exact ⟨r ++ ']' :: rest, by rw [renderItems_single, hcr]; rfl⟩
      | cons y tl2 =>
        exact ⟨r ++ (',' :: renderItems (y :: tl2) ++ ']' :: rest), by
          rw [renderItems_cons_cons, hcr]; simp⟩
    obtain ⟨r2, hr2⟩ := hstart
    rw [hr2] at hpe ⊢
    rw [parseValue, skipWS_cons '[' _ rfl]
    have h1 : ('[' : Char) ≠ quoteC := by decide
    simp only [h1, if_false, if_true, skipWS_cons c r2 hws, hnb, hpe]

theorem renderMembers_single (k : List Char) (x : JSON) :
    renderMembers [(k, x)] = quoteC :: (escape k ++ quoteC :: ':' :: render x) := by
  rw [renderMembers]

theorem renderMembers_cons_cons (k : List Char) (x : JSON) (m : List Char × JSON)
    (tl : List (List Char × JSON)) :
    renderMembers ((k, x) :: m :: tl)
      = quoteC :: (escape k ++ quoteC :: ':' :: (render x ++ ',' :: renderMembers (m :: tl))) := by
  rw [renderMembers]

theorem parseMembers_render (members : List (List Char × JSON)) (hne : members ≠ [])
    (ih : ∀ m ∈ members, ReadsBack m.2) (fuel : Nat) (rest : List Char)
    (hf : (renderMembers members).length + 1 < fuel) :
    parseMembers fuel (renderMembers members ++ rbraceC :: rest) = some (members, rest) := by
  induction members generalizing fuel with
  | nil => exact absurd rfl hne
  | cons m tl ihl =>
    obtain ⟨key, x⟩ := m
    cases fuel with
    | zero => omega
    | succ k =>
      have hx : ReadsBack x := ih (key, x) (List.mem_cons_self _ tl)
      have hkey := escape_length key
      cases tl with
      | nil =>
        rw [renderMembers_single] at hf ⊢
        simp only [List.length_append, List.length_cons] at hf
        simp only [List.cons_append, List.append_assoc]
        rw [parseMembers, skipWS_cons quoteC _ rfl]
        simp only [if_true]
        rw [parseStringBody_escape key k _ [] (by omega)]
        simp only [List.reverse_nil, List.nil_append, skipWS_cons ':' _ rfl, if_true]
        rw [hx k (rbraceC :: rest) (by omega) rfl]
        rfl
      | cons m2 tl2 =>
        rw [renderMembers_cons_cons] at hf ⊢
        simp only [List.length_append, List.length_cons] at hf
        have hrec := ihl (by simp) (fun z hz => ih z (List.mem_cons_of_mem _ hz)) k
          (by omega)
        simp only [List.cons_append, List.append_assoc]
        rw [parseMembers, skipWS_cons quoteC _ rfl]
        simp only [if_true]
        rw [parseStringBody_escape key k _ [] (by omega)]
        simp only [List.reverse_nil, List.nil_append, skipWS_cons ':' _ rfl, if_true]
        rw [hx k (',' :: (renderMembers (m2 :: tl2) ++ rbraceC :: rest)) (by omega) rfl]
        simp only [skipWS_cons ',' _ rfl, if_true]
        rw [hrec]

theorem parseValue_obj (members : List (List Char × JSON))
    (ih : ∀ m ∈ members, ReadsBack m.2) (k : Nat) (rest : List Char)
    (hf : (renderMembers members).length + 1 < k) :
    parseValue (k + 1) (lbraceC :: (renderMembers members ++ rbraceC :: rest))
      = some (.obj members, rest) := by
  cases members with
  | nil => rfl
  | cons m tl =>
    have hpe := parseMembers_render (m :: tl) (by simp) ih k rest hf
    have hstart : ∃ r2, renderMembers (m :: tl) ++ rbraceC :: rest = quoteC :: r2 := by
      obtain ⟨key, x⟩ := m
      cases tl with
      | nil => exact ⟨_, by rw [renderMembers_single]; rfl⟩
      | cons y tl2 => exact ⟨_, by rw [renderMembers_cons_cons]; rfl⟩
    obtain ⟨r2, hr2⟩ := hstart
    rw [hr2] at hpe ⊢
    rw [parseValue, skipWS_cons lbraceC _ rfl]
    have h1 : lbraceC ≠ quoteC := by decide
    have h2 : lbraceC ≠ '[' := by decide
    have h3 : quoteC ≠ rbraceC := by decide
    simp only [h1, h2, if_false, if_true, skipWS_cons quoteC r2 rfl, h3, hpe]

/-- Reading the text of a well-formed value gives the value back, with enough
fuel, whatever follows that cannot continue a number. -/
theorem parseValue_render (j : JSON) (h : j.WF) : ReadsBack j := by
  induction h with
  | null =>
    intro fuel rest hf _
    cases fuel with
    | zero => omega
    | succ k => exact parseValue_null k rest
  | bool b =>
    intro fuel rest hf _
    cases fuel with
    | zero => omega
    | succ k =>
      cases b
      · exact parseValue_false k rest
      · exact parseValue_true k rest
  | num lit hv =>
    intro fuel rest hf hr
    cases fuel with
    | zero => omega
    | succ k => exact parseValue_num k lit rest hv hr
  | str s =>
    intro fuel rest hf _
    cases fuel with
    | zero => omega
    | succ k =>
      have := escape_length s
      simp only [render, escapeItems_runes, List.length_cons, List.length_append,
        List.length_nil] at hf
      simp only [render, escapeItems_runes, List.cons_append, List.append_assoc,
        List.nil_append]
      exact parseValue_str k s rest (by omega)
  | arr items hwf ih =>
    intro fuel rest hf _
    cases fuel with
    | zero => omega
    | succ k =>
      simp only [render, List.length_cons, List.length_append, List.length_nil] at hf
      simp only [render, List.cons_append, List.append_assoc, List.nil_append]
      exact parseValue_arr items hwf ih k rest (by omega)
  | obj members hwf ih =>
    intro fuel rest hf _
    cases fuel with
    | zero => omega
    | succ k =>
      simp only [render, List.length_cons, List.length_append, List.length_nil] at hf
      simp only [render, List.cons_append, List.append_assoc, List.nil_append]
      exact parseValue_obj members ih k rest (by omega)

/-- The compact text of a well-formed value is a document with that value. -/
theorem parseDocument_render (j : JSON) (h : j.WF) : parseDocument (render j) = some j := by
  unfold parseDocument
  have := parseValue_render j h ((render j).length + 1) [] (by omega) rfl
  rw [List.append_nil] at this
  rw [this]
  rfl

/-! ## Facts about the JSON model: storing into the structs -/

theorem fieldIndex_gttFields_target :
    fieldIndex gttFields ['t', 'a', 'r', 'g', 'e', 't'] = some 0 := by
  rfl

theorem fieldIndex_gttFields_stoploss :
    fieldIndex gttFields ['s', 't', 'o', 'p', 'l', 'o', 's', 's'] = some 1 := by
  rfl

theorem fieldIndex_orderParamsFields_transaction_type :
    fieldIndex orderParamsFields ['t', 'r', 'a', 'n', 's', 'a', 'c', 't', 'i', 'o', 'n', '_', 't', 'y', 'p', 'e'] = some 0 := by
  rfl

theorem fieldIndex_orderParamsFields_product :
    fieldIndex orderParamsFields ['p', 'r', 'o', 'd', 'u', 'c', 't'] = some 1 := by
  rfl

theorem fieldIndex_orderParamsFields_order_type :
    fieldIndex orderParamsFields ['o', 'r', 'd', 'e', 'r', '_', 't', 'y', 'p', 'e'] = some 2 := by
  rfl

theorem fieldIndex_orderParamsFields_validity :
    fieldIndex orderParamsFields ['v', 'a', 'l', 'i', 'd', 'i', 't', 'y'] = some 3 := by
  rfl

theorem fieldIndex_orderParamsFields_validity_ttl :
    fieldIndex orderParamsFields ['v', 'a', 'l', 'i', 'd', 'i', 't', 'y', '_', 't', 't', 'l'] = some 4 := by
  rfl

theorem fieldIndex_orderParamsFields_quantity :
    fieldIndex orderParamsFields ['q', 'u', 'a', 'n', 't', 'i', 't', 'y'] = some 5 := by
  rfl

theorem fieldIndex_orderParamsFields_price :
    fieldIndex orderParamsFields ['p', 'r', 'i', 'c', 'e'] = some 6 := by
  rfl

theorem fieldIndex_orderParamsFields_trigger_price :
    fieldIndex orderParamsFields ['t', 'r', 'i', 'g', 'g', 'e', 'r', '_', 'p', 'r', 'i', 'c', 'e'] = some 7 := by
  rfl

theorem fieldIndex_orderParamsFields_disclosed_quantity :
    fieldIndex orderParamsFields ['d', 'i', 's', 'c', 'l', 'o', 's', 'e', 'd', '_', 'q', 'u', 'a', 'n', 't', 'i', 't', 'y'] = some 8 := by
  rfl

theorem fieldIndex_orderParamsFields_last_price :
    fieldIndex orderParamsFields ['l', 'a', 's', 't', '_', 'p', 'r', 'i', 'c', 'e'] = some 9 := by
  rfl

theorem fieldIndex_orderParamsFields_variety :
    fieldIndex orderParamsFields ['v', 'a', 'r', 'i', 'e', 't', 'y'] = some 10 := by
  rfl

theorem fieldIndex_orderParamsFields_tags :
    fieldIndex orderParamsFields ['t', 'a', 'g', 's'] = some 11 := by
  rfl

theorem fieldIndex_orderParamsFields_squareoff :
    fieldIndex orderParamsFields ['s', 'q', 'u', 'a', 'r', 'e', 'o', 'f', 'f'] = some 12 := by
  rfl

theorem fieldIndex_orderParamsFields_stoploss :
    fieldIndex orderParamsFields ['s', 't', 'o', 'p', 'l', 'o', 's', 's'] = some 13 := by
  rfl

theorem fieldIndex_orderParamsFields_trailing_stoploss :
    fieldIndex orderParamsFields ['t', 'r', 'a', 'i', 'l', 'i', 'n', 'g', '_', 's', 't', 'o', 'p', 'l', 'o', 's', 's'] = some 14 := by
  rfl

theorem fieldIndex_orderParamsFields_iceberg_legs :
    fieldIndex orderParamsFields ['i', 'c', 'e', 'b', 'e', 'r', 'g', '_', 'l', 'e', 'g', 's'] = some 15 := by
  rfl

theorem fieldIndex_orderParamsFields_market_protection :
    fieldIndex orderParamsFields ['m', 'a', 'r', 'k', 'e', 't', '_', 'p', 'r', 'o', 't', 'e', 'c', 't', 'i', 'o', 'n'] = some 16 := by
  rfl

theorem fieldIndex_orderParamsFields_gtt :
    fieldIndex orderParamsFields ['g', 't', 't'] = some 17 := by
  rfl

theorem fieldIndex_itemFields_type :
    fieldIndex itemFields ['t', 'y', 'p', 'e'] = some 0 := by
  rfl

theorem fieldIndex_itemFields_tradingsymbol :
    fieldIndex itemFields ['t', 'r', 'a', 'd', 'i', 'n', 'g', 's', 'y', 'm', 'b', 'o', 'l'] = some 1 := by
  rfl

theorem fieldIndex_itemFields_exchange :
    fieldIndex itemFields ['e', 'x', 'c', 'h', 'a', 'n', 'g', 'e'] = some 2 := by
  rfl

theorem fieldIndex_itemFields_weight :
    fieldIndex itemFields ['w', 'e', 'i', 'g', 'h', 't'] = some 3 := by
  rfl

theorem fieldIndex_itemFields_params :
    fieldIndex itemFields ['p', 'a', 'r', 'a', 'm', 's'] = some 4 := by
  rfl

theorem fieldIndex_itemFields_id :
    fieldIndex itemFields ['i', 'd'] = some 5 := by
  rfl

theorem fieldIndex_itemFields_instrument_token :
    fieldIndex itemFields ['i', 'n', 's', 't', 'r', 'u', 'm', 'e', 'n', 't', '_', 't', 'o', 'k', 'e', 'n'] = some 6 := by
  rfl

theorem fieldIndex_basketFields_name :
    fieldIndex basketFields ['n', 'a', 'm', 'e'] = some 0 := by
  rfl

theorem fieldIndex_basketFields_type :
    fieldIndex basketFields ['t', 'y', 'p', 'e'] = some 1 := by
  rfl

theorem fieldIndex_basketFields_tags :
    fieldIndex basketFields ['t', 'a', 'g', 's'] = some 2 := by
  rfl

theorem fieldIndex_basketFields_items :
    fieldIndex basketFields ['i', 't', 'e', 'm', 's'] = some 3 := by
  rfl

theorem decodeString_encodeString (cur s : GoString) (h : utf8Valid s = true) :
    decodeString cur (encodeString s) = .ok s := by
  obtain ⟨cs, hcs, hbytes⟩ := encodeString_valid s h
  rw [hcs]
  simp only [decodeString, flatMap_itemBytes_runes, hbytes]

theorem decodeInt_encodeInt (cur i : Int) (h : fitsInt i = true) :
    decodeInt cur (encodeInt i) = .ok i := by
  simp [decodeInt, encodeInt, parseInt_formatInt i h]

theorem encodeFloat_finite (ft : FloatText) (f : Float64) (h : f.isFinite = true) :
    encodeFloat ft f = .ok (.num (ft.formatJSON f)) := by
  simp only [Float64.isFinite, Bool.not_eq_true'] at h
  simp [encodeFloat, h]

theorem decodeFloat_roundTrips (ft : FloatText) (cur f : Float64) (h : ft.roundTrips f) :
    decodeFloat ft cur (.num (ft.formatJSON f)) = .ok f := by
  simp [decodeFloat, h.2]

theorem decodeGTT_encodeGTT (ft : FloatText) (g : OrderGTTParams)
    (hfin : ∀ f ∈ gttFloats (some g), f.isFinite = true)
    (hrt : ∀ f ∈ gttFloats (some g), ft.roundTrips f) :
    ∃ j, encodeGTT ft g = .ok j ∧ j.WF ∧
      ∀ cur, decodeGTT ft cur j = .ok (some g) := by
  simp only [gttFloats, List.mem_cons, List.mem_singleton, List.not_mem_nil, or_false,
    forall_eq_or_imp, forall_eq] at hfin hrt
  refine ⟨.obj [("target".data, .num (ft.formatJSON g.Target)),
    ("stoploss".data, .num (ft.formatJSON g.Stoploss))], ?_, ?_, ?_⟩
  · simp [encodeGTT, encodeFloat_finite, hfin.1, hfin.2, bind, Except.bind, pure, Except.pure]
  · apply JSON.WF.obj
    intro m hm
    simp only [List.mem_cons, List.mem_singleton, List.not_mem_nil, or_false] at hm
    rcases hm with rfl | rfl
    · exact JSON.WF.num _ hrt.1.1
    · exact JSON.WF.num _ hrt.2.1
  · intro cur
    simp [decodeGTT, decodeGTTField, fieldIndex_gttFields_target, fieldIndex_gttFields_stoploss,
      decodeFloat_roundTrips, hrt.1, hrt.2, bind, Except.bind, pure, Except.pure]

theorem mapM_decodeString (l : List GoString) (h : ∀ s ∈ l, utf8Valid s = true) :
    (l.map encodeString).mapM (decodeString []) = .ok l := by
  induction l with
  | nil => rfl
  | cons s tl ih =>
    simp only [List.map_cons, List.mapM_cons,
      decodeString_encodeString _ _ (h s (List.mem_cons_self s tl)),
      ih (fun x hx => h x (List.mem_cons_of_mem s hx)), bind, Except.bind, pure, Except.pure]

theorem decodeStrings_encodeStrings (xs : Slice GoString)
    (h : ∀ s ∈ xs.getD [], utf8Valid s = true) :
    decodeStrings (encodeStrings xs) = .ok xs := by
  cases xs with
  | none => rfl
  | some l => simp only [decodeStrings, encodeStrings, mapM_decodeString l h]

theorem WF_encodeString (s : GoString) (h : utf8Valid s = true) : (encodeString s).WF := by
  obtain ⟨cs, hcs, _⟩ := encodeString_valid s h
  rw [hcs]
  exact JSON.WF.str _

theorem WF_encodeStrings (xs : Slice GoString) (h : ∀ s ∈ xs.getD [], utf8Valid s = true) :
    (encodeStrings xs).WF := by
  cases xs with
  | none => exact JSON.WF.null
  | some l =>
    apply JSON.WF.arr
    intro x hx
    obtain ⟨s, hs, rfl⟩ := List.mem_map.mp hx
    exact WF_encodeString s (h s hs)

theorem WF_encodeInt (i : Int) : (encodeInt i).WF :=
  JSON.WF.num _ (isValidNumber_formatInt i)

theorem encodeGTTMember_spec (ft : FloatText) (gtt : Option OrderGTTParams)
    (hfin : ∀ f ∈ gttFloats gtt, f.isFinite = true)
    (hrt : ∀ f ∈ gttFloats gtt, ft.roundTrips f) :
    ∃ ms, encodeGTTMember ft gtt = .ok ms ∧ (∀ m ∈ ms, m.2.WF) ∧
      ∀ q : AlertOrderParams, q.GTT = none →
        ms.foldlM (decodeOrderParamsField ft) q = .ok { q with GTT := gtt } := by
  cases gtt with
  | none =>
    refine ⟨[], rfl, by simp, ?_⟩
    intro q hq
    cases q
    simp only at hq
    subst hq
    rfl
  | some g =>
    obtain ⟨j, hj, hwf, hdec⟩ := decodeGTT_encodeGTT ft g hfin hrt
    refine ⟨[("gtt".data, j)], ?_, ?_, ?_⟩
    · simp [encodeGTTMember, hj, bind, Except.bind, pure, Except.pure]
    · intro m hm
      simp only [List.mem_singleton] at hm
      subst hm
      exact hwf
    · intro q _
      simp [decodeOrderParamsField, fieldIndex_orderParamsFields_gtt, hdec, bind, Except.bind,
        pure, Except.pure]

theorem foldlM_cons_ok {α β : Type} (f : β → α → Except String β) {a b : β} {x : α}
    {xs : List α} {r : Except String β} (h1 : f a x = .ok b) (h2 : List.foldlM f b xs = r) :
    List.foldlM f a (x :: xs) = r := by
  rw [List.foldlM_cons, h1]
  exact h2

theorem foldlM_append_ok {α β : Type} (f : β → α → Except String β) {a b : β}
    {l1 l2 : List α} {r : Except String β} (h1 : List.foldlM f a l1 = .ok b)
    (h2 : List.foldlM f b l2 = r) : List.foldlM f a (l1 ++ l2) = r := by
  rw [List.foldlM_append, h1]
  exact h2

theorem decodeOrderParamsField_transaction_type (ft : FloatText) (q : AlertOrderParams) (s : GoString)
    (hs : utf8Valid s = true) :
    decodeOrderParamsField ft q (['t', 'r', 'a', 'n', 's', 'a', 'c', 't', 'i', 'o', 'n', '_', 't', 'y', 'p', 'e'], encodeString s) = .ok { q with TransactionType := s } := by
  simp only [decodeOrderParamsField, fieldIndex_orderParamsFields_transaction_type, decodeString_encodeString _ _ hs, bind, Except.bind, pure, Except.pure]

theorem decodeOrderParamsField_product (ft : FloatText) (q : AlertOrderParams) (s : GoString)
    (hs : utf8Valid s = true) :
    decodeOrderParamsField ft q (['p', 'r', 'o', 'd', 'u', 'c', 't'], encodeString s) = .ok { q with Product := s } := by
  simp only [decodeOrderParamsField, fieldIndex_orderParamsFields_product, decodeString_encodeString _ _ hs, bind, Except.bind, pure, Except.pure]

theorem decodeOrderParamsField_order_type (ft : FloatText) (q : AlertOrderParams) (s : GoString)
    (hs : utf8Valid s = true) :
    decodeOrderParamsField ft q (['o', 'r', 'd', 'e', 'r', '_', 't', 'y', 'p', 'e'], encodeString s) = .ok { q with OrderType := s } := by
  simp only [decodeOrderParamsField, fieldIndex_orderParamsFields_order_type, decodeString_encodeString _ _ hs, bind, Except.bind, pure, Except.pure]

theorem decodeOrderParamsField_validity (ft : FloatText) (q : AlertOrderParams) (s : GoString)
    (hs : utf8Valid s = true) :
    decodeOrderParamsField ft q (['v', 'a', 'l', 'i', 'd', 'i', 't', 'y'], encodeString s) = .ok { q with Validity := s } := by
  simp only [decodeOrderParamsField, fieldIndex_orderParamsFields_validity, decodeString_encodeString _ _ hs, bind, Except.bind, pure, Except.pure]

theorem decodeOrderParamsField_validity_ttl (ft : FloatText) (q : AlertOrderParams) (i : Int) (h : fitsInt i = true) :
    decodeOrderParamsField ft q (['v', 'a', 'l', 'i', 'd', 'i', 't', 'y', '_', 't', 't', 'l'], encodeInt i) = .ok { q with ValidityTTL := i } := by
  simp only [decodeOrderParamsField, fieldIndex_orderParamsFields_validity_ttl, decodeInt_encodeInt _ _ h, bind, Except.bind, pure, Except.pure]

theorem decodeOrderParamsField_quantity (ft : FloatText) (q : AlertOrderParams) (i : Int) (h : fitsInt i = true) :
    decodeOrderParamsField ft q (['q', 'u', 'a', 'n', 't', 'i', 't', 'y'], encodeInt i) = .ok { q with Quantity := i } := by
  simp only [decodeOrderParamsField, fieldIndex_orderParamsFields_quantity, decodeInt_encodeInt _ _ h, bind, Except.bind, pure, Except.pure]

theorem decodeOrderParamsField_price (ft : FloatText) (q : AlertOrderParams) (f : Float64) (h : ft.roundTrips f) :
    decodeOrderParamsField ft q (['p', 'r', 'i', 'c', 'e'], .num (ft.formatJSON f)) = .ok { q with Price := f } := by
  simp only [decodeOrderParamsField, fieldIndex_orderParamsFields_price, decodeFloat_roundTrips _ _ _ h, bind, Except.bind, pure,
    Except.pure]

theorem decodeOrderParamsField_trigger_price (ft : FloatText) (q : AlertOrderParams) (f : Float64) (h : ft.roundTrips f) :
    decodeOrderParamsField ft q (['t', 'r', 'i', 'g', 'g', 'e', 'r', '_', 'p', 'r', 'i', 'c', 'e'], .num (ft.formatJSON f)) = .ok { q with TriggerPrice := f } := by
  simp only [decodeOrderParamsField, fieldIndex_orderParamsFields_trigger_price, decodeFloat_roundTrips _ _ _ h, bind, Except.bind, pure,
    Except.pure]

theorem decodeOrderParamsField_disclosed_quantity (ft : FloatText) (q : AlertOrderParams) (i : Int) (h : fitsInt i = true) :
    decodeOrderParamsField ft q (['d', 'i', 's', 'c', 'l', 'o', 's', 'e', 'd', '_', 'q', 'u', 'a', 'n', 't', 'i', 't', 'y'], encodeInt i) = .ok { q with DisclosedQuantity := i } := by
  simp only [decodeOrderParamsField, fieldIndex_orderParamsFields_disclosed_quantity, decodeInt_encodeInt _ _ h, bind, Except.bind, pure, Except.pure]

theorem decodeOrderParamsField_last_price (ft : FloatText) (q : AlertOrderParams) (f : Float64) (h : ft.roundTrips f) :
    decodeOrderParamsField ft q (['l', 'a', 's', 't', '_', 'p', 'r', 'i', 'c', 'e'], .num (ft.formatJSON f)) = .ok { q with LastPrice := f } := by
  simp only [decodeOrderParamsField, fieldIndex_orderParamsFields_last_price, decodeFloat_roundTrips _ _ _ h, bind, Except.bind, pure,
    Except.pure]

theorem decodeOrderParamsField_variety (ft : FloatText) (q : AlertOrderParams) (s : GoString)
    (hs : utf8Valid s = true) :
    decodeOrderParamsField ft q (['v', 'a', 'r', 'i', 'e', 't', 'y'], encodeString s) = .ok { q with Variety := s } := by
  simp only [decodeOrderParamsField, fieldIndex_orderParamsFields_variety, decodeString_encodeString _ _ hs, bind, Except.bind, pure, Except.pure]

theorem decodeOrderParamsField_tags (ft : FloatText) (q : AlertOrderParams) (xs : Slice GoString)
    (hs : ∀ s ∈ xs.getD [], utf8Valid s = true) :
    decodeOrderParamsField ft q (['t', 'a', 'g', 's'], encodeStrings xs) = .ok { q with Tags := xs } := by
  simp only [decodeOrderParamsField, fieldIndex_orderParamsFields_tags, decodeStrings_encodeStrings _ hs, bind, Except.bind, pure, Except.pure]

theorem decodeOrderParamsField_squareoff (ft : FloatText) (q : AlertOrderParams) (f : Float64) (h : ft.roundTrips f) :
    decodeOrderParamsField ft q (['s', 'q', 'u', 'a', 'r', 'e', 'o', 'f', 'f'], .num (ft.formatJSON f)) = .ok { q with Squareoff := f } := by
  simp only [decodeOrderParamsField, fieldIndex_orderParamsFields_squareoff, decodeFloat_roundTrips _ _ _ h, bind, Except.bind, pure,
    Except.pure]

theorem decodeOrderParamsField_stoploss (ft : FloatText) (q : AlertOrderParams) (f : Float64) (h : ft.roundTrips f) :
    decodeOrderParamsField ft q (['s', 't', 'o', 'p', 'l', 'o', 's', 's'], .num (ft.formatJSON f)) = .ok { q with Stoploss := f } := by
  simp only [decodeOrderParamsField, fieldIndex_orderParamsFields_stoploss, decodeFloat_roundTrips _ _ _ h, bind, Except.bind, pure,
    Except.pure]

theorem decodeOrderParamsField_trailing_stoploss (ft : FloatText) (q : AlertOrderParams) (f : Float64) (h : ft.roundTrips f) :
    decodeOrderParamsField ft q (['t', 'r', 'a', 'i', 'l', 'i', 'n', 'g', '_', 's', 't', 'o', 'p', 'l', 'o', 's', 's'], .num (ft.formatJSON f)) = .ok { q with TrailingStoploss := f } := by
  simp only [decodeOrderParamsField, fieldIndex_orderParamsFields_trailing_stoploss, decodeFloat_roundTrips _ _ _ h, bind, Except.bind, pure,
    Except.pure]

theorem decodeOrderParamsField_iceberg_legs (ft : FloatText) (q : AlertOrderParams) (i : Int) (h : fitsInt i = true) :
    decodeOrderParamsField ft q (['i', 'c', 'e', 'b', 'e', 'r', 'g', '_', 'l', 'e', 'g', 's'], encodeInt i) = .ok { q with IcebergLegs := i } := by
  simp only [decodeOrderParamsField, fieldIndex_orderParamsFields_iceberg_legs, decodeInt_encodeInt _ _ h, bind, Except.bind, pure, Except.pure]

theorem decodeOrderParamsField_market_protection (ft : FloatText) (q : AlertOrderParams) (f : Float64) (h : ft.roundTrips f) :
    decodeOrderParamsField ft q (['m', 'a', 'r', 'k', 'e', 't', '_', 'p', 'r', 'o', 't', 'e', 'c', 't', 'i', 'o', 'n'], .num (ft.formatJSON f)) = .ok { q with MarketProtection := f } := by
  simp only [decodeOrderParamsField, fieldIndex_orderParamsFields_market_protection, decodeFloat_roundTrips _ _ _ h, bind, Except.bind, pure,
    Except.pure]

theorem decodeOrderParams_encodeOrderParams (ft : FloatText) (p : AlertOrderParams)
    (hstr : ∀ s ∈ p.strings, utf8Valid s = true)
    (hint : ∀ i ∈ p.ints, fitsInt i = true)
    (hfin : ∀ f ∈ p.floats, f.isFinite = true)
    (hrt : ∀ f ∈ p.floats, ft.roundTrips f) :
    ∃ j, encodeOrderParams ft p = .ok j ∧ j.WF ∧
      ∀ cur : AlertOrderParams, cur.GTT = none → decodeOrderParams ft cur j = .ok p := by
  simp only [AlertOrderParams.floats, List.mem_append, List.mem_cons, List.mem_singleton,
    List.not_mem_nil, or_false] at hfin hrt
  simp only [AlertOrderParams.ints, List.mem_cons, List.mem_singleton, List.not_mem_nil,
    or_false, forall_eq_or_imp, forall_eq] at hint
  obtain ⟨hi1, hi2, hi3, hi4⟩ := hint
  simp only [AlertOrderParams.strings, List.mem_append, List.mem_cons, List.mem_singleton,
    List.not_mem_nil, or_false] at hstr
  have s1 := hstr p.TransactionType (by simp)
  have s2 := hstr p.Product (by simp)
  have s3 := hstr p.OrderType (by simp)
  have s4 := hstr p.Validity (by simp)
  have s5 := hstr p.Variety (by simp)
  have s6 : ∀ s ∈ p.Tags.getD [], utf8Valid s = true := fun s hs => hstr s (Or.inr hs)
  have f1 := hfin p.Price (by simp)
  have f2 := hfin p.TriggerPrice (by simp)
  have f3 := hfin p.LastPrice (by simp)
  have f4 := hfin p.Squareoff (by simp)
  have f5 := hfin p.Stoploss (by simp)
  have f6 := hfin p.TrailingStoploss (by simp)
  have f7 := hfin p.MarketProtection (by simp)
  have r1 := hrt p.Price (by simp)
  have r2 := hrt p.TriggerPrice (by simp)
  have r3 := hrt p.LastPrice (by simp)
  have r4 := hrt p.Squareoff (by simp)
  have r5 := hrt p.Stoploss (by simp)
  have r6 := hrt p.TrailingStoploss (by simp)
  have r7 := hrt p.MarketProtection (by simp)
  obtain ⟨ms, hms, hmswf, hmsdec⟩ := encodeGTTMember_spec ft p.GTT
    (fun f hf => hfin f (Or.inr hf)) (fun f hf => hrt f (Or.inr hf))
  have henc : encodeOrderParams ft p = .ok (.obj ([
      ("transaction_type".data, encodeString p.TransactionType),
      ("product".data, encodeString p.Product),
      ("order_type".data, encodeString p.OrderType),
      ("validity".data, encodeString p.Validity),
      ("validity_ttl".data, encodeInt p.ValidityTTL),
      ("quantity".data, encodeInt p.Quantity),
      ("price".data, .num (ft.formatJSON p.Price)),
      ("trigger_price".data, .num (ft.formatJSON p.TriggerPrice)),
      ("disclosed_quantity".data, encodeInt p.DisclosedQuantity),
      ("last_price".data, .num (ft.formatJSON p.LastPrice)),
      ("variety".data, encodeString p.Variety),
      ("tags".data, encodeStrings p.Tags),
      ("squareoff".data, .num (ft.formatJSON p.Squareoff)),
      ("stoploss".data, .num (ft.formatJSON p.Stoploss)),
      ("trailing_stoploss".data, .num (ft.formatJSON p.TrailingStoploss)),
      ("iceberg_legs".data, encodeInt p.IcebergLegs),
      ("market_protection".data, .num (ft.formatJSON p.MarketProtection))] ++ ms)) := by
    simp only [encodeOrderParams, encodeFloat_finite, f1, f2, f3, f4, f5, f6, f7, hms, bind,
      Except.bind, pure, Except.pure]
  refine ⟨_, henc, ?_, ?_⟩
  · apply JSON.WF.obj
    intro m hm
    rcases List.mem_append.mp hm with hm | hm
    · simp only [List.mem_cons, List.mem_singleton, List.not_mem_nil, or_false] at hm
      rcases hm with rfl | rfl | rfl | rfl | rfl | rfl | rfl | rfl | rfl | rfl | rfl | rfl |
        rfl | rfl | rfl | rfl | rfl
      · exact WF_encodeString _ s1
      · exact WF_encodeString _ s2
      · exact WF_encodeString _ s3
      · exact WF_encodeString _ s4
      · exact WF_encodeInt _
      · exact WF_encodeInt _
      · exact JSON.WF.num _ r1.1
      · exact JSON.WF.num _ r2.1
      · exact WF_encodeInt _
      · exact JSON.WF.num _ r3.1
      · exact WF_encodeString _ s5
      · exact WF_encodeStrings _ s6
      · exact JSON.WF.num _ r4.1
      · exact JSON.WF.num _ r5.1
      · exact JSON.WF.num _ r6.1
      · exact WF_encodeInt _
      · exact JSON.WF.num _ r7.1
    · exact hmswf m hm
  · intro cur hcur
    show List.foldlM (decodeOrderParamsField ft) cur _ = .ok p
    refine foldlM_append_ok _ ?_ ((hmsdec { p with GTT := cur.GTT } hcur).trans ?_)
    · refine foldlM_cons_ok _ (decodeOrderParamsField_transaction_type ft _ _ s1) ?_
      refine foldlM_cons_ok _ (decodeOrderParamsField_product ft _ _ s2) ?_
      refine foldlM_cons_ok _ (decodeOrderParamsField_order_type ft _ _ s3) ?_
      refine foldlM_cons_ok _ (decodeOrderParamsField_validity ft _ _ s4) ?_
      refine foldlM_cons_ok _ (decodeOrderParamsField_validity_ttl ft _ _ hi1) ?_
      refine foldlM_cons_ok _ (decodeOrderParamsField_quantity ft _ _ hi2) ?_
      refine foldlM_cons_ok _ (decodeOrderParamsField_price ft _ _ r1) ?_
      refine foldlM_cons_ok _ (decodeOrderParamsField_trigger_price ft _ _ r2) ?_
      refine foldlM_cons_ok _ (decodeOrderParamsField_disclosed_quantity ft _ _ hi3) ?_
      refine foldlM_cons_ok _ (decodeOrderParamsField_last_price ft _ _ r3) ?_
      refine foldlM_cons_ok _ (decodeOrderParamsField_variety ft _ _ s5) ?_
      refine foldlM_cons_ok _ (decodeOrderParamsField_tags ft _ _ s6) ?_
      refine foldlM_cons_ok _ (decodeOrderParamsField_squareoff ft _ _ r4) ?_
      refine foldlM_cons_ok _ (decodeOrderParamsField_stoploss ft _ _ r5) ?_
      refine foldlM_cons_ok _ (decodeOrderParamsField_trailing_stoploss ft _ _ r6) ?_
      refine foldlM_cons_ok _ (decodeOrderParamsField_iceberg_legs ft _ _ hi4) ?_
      refine foldlM_cons_ok _ (decodeOrderParamsField_market_protection ft _ _ r7) ?_
      exact congrArg Except.ok (by cases p; rfl)
    · cases p
      rfl

theorem decodeItemField_type (ft : FloatText) (q : BasketItem) (s : GoString)
    (hs : utf8Valid s = true) :
    decodeItemField ft q (['t', 'y', 'p', 'e'], encodeString s) = .ok { q with Type_ := s } := by
  simp only [decodeItemField, fieldIndex_itemFields_type, decodeString_encodeString _ _ hs, bind, Except.bind, pure, Except.pure]

theorem decodeItemField_tradingsymbol (ft : FloatText) (q : BasketItem) (s : GoString)
    (hs : utf8Valid s = true) :
    decodeItemField ft q (['t', 'r', 'a', 'd', 'i', 'n', 'g', 's', 'y', 'm', 'b', 'o', 'l'], encodeString s) = .ok { q with TradingSymbol := s } := by
  simp only [decodeItemField, fieldIndex_itemFields_tradingsymbol, decodeString_encodeString _ _ hs, bind, Except.bind, pure, Except.pure]

theorem decodeItemField_exchange (ft : FloatText) (q : BasketItem) (s : GoString)
    (hs : utf8Valid s = true) :
    decodeItemField ft q (['e', 'x', 'c', 'h', 'a', 'n', 'g', 'e'], encodeString s) = .ok { q with Exchange := s } := by
  simp only [decodeItemField, fieldIndex_itemFields_exchange, decodeString_encodeString _ _ hs, bind, Except.bind, pure, Except.pure]

theorem decodeItemField_weight (ft : FloatText) (q : BasketItem) (i : Int) (h : fitsInt i = true) :
    decodeItemField ft q (['w', 'e', 'i', 'g', 'h', 't'], encodeInt i) = .ok { q with Weight := i } := by
  simp only [decodeItemField, fieldIndex_itemFields_weight, decodeInt_encodeInt _ _ h, bind, Except.bind, pure, Except.pure]

theorem decodeItemField_params (ft : FloatText) (q : BasketItem) (j : JSON) (p : AlertOrderParams)
    (h : decodeOrderParams ft q.Params j = .ok p) :
    decodeItemField ft q (['p', 'a', 'r', 'a', 'm', 's'], j) = .ok { q with Params := p } := by
  simp only [decodeItemField, fieldIndex_itemFields_params, h, bind, Except.bind, pure, Except.pure]

theorem decodeItemField_id (ft : FloatText) (q : BasketItem) (i : Int) (h : fitsInt i = true) :
    decodeItemField ft q (['i', 'd'], encodeInt i) = .ok { q with ID := i } := by
  simp only [decodeItemField, fieldIndex_itemFields_id, decodeInt_encodeInt _ _ h, bind, Except.bind, pure, Except.pure]

theorem decodeItemField_instrument_token (ft : FloatText) (q : BasketItem) (i : Int) (h : fitsInt i = true) :
    decodeItemField ft q (['i', 'n', 's', 't', 'r', 'u', 'm', 'e', 'n', 't', '_', 't', 'o', 'k', 'e', 'n'], encodeInt i) = .ok { q with InstrumentToken := i } := by
  simp only [decodeItemField, fieldIndex_itemFields_instrument_token, decodeInt_encodeInt _ _ h, bind, Except.bind, pure, Except.pure]

theorem decodeBasketField_name (ft : FloatText) (q : Basket) (s : GoString)
    (hs : utf8Valid s = true) :
    decodeBasketField ft q (['n', 'a', 'm', 'e'], encodeString s) = .ok { q with Name := s } := by
  simp only [decodeBasketField, fieldIndex_basketFields_name, decodeString_encodeString _ _ hs, bind, Except.bind, pure, Except.pure]

theorem decodeBasketField_type (ft : FloatText) (q : Basket) (s : GoString)
    (hs : utf8Valid s = true) :
    decodeBasketField ft q (['t', 'y', 'p', 'e'], encodeString s) = .ok { q with Type_ := s } := by
  simp only [decodeBasketField, fieldIndex_basketFields_type, decodeString_encodeString _ _ hs, bind, Except.bind, pure, Except.pure]

theorem decodeBasketField_tags (ft : FloatText) (q : Basket) (xs : Slice GoString)
    (hs : ∀ s ∈ xs.getD [], utf8Valid s = true) :
    decodeBasketField ft q (['t', 'a', 'g', 's'], encodeStrings xs) = .ok { q with Tags := xs } := by
  simp only [decodeBasketField, fieldIndex_basketFields_tags, decodeStrings_encodeStrings _ hs, bind, Except.bind, pure, Except.pure]

theorem decodeBasketField_items (ft : FloatText) (q : Basket) (j : JSON) (xs : Slice BasketItem)
    (h : decodeItems ft j = .ok xs) :
    decodeBasketField ft q (['i', 't', 'e', 'm', 's'], j) = .ok { q with Items := xs } := by
  simp only [decodeBasketField, fieldIndex_basketFields_items, h, bind, Except.bind, pure, Except.pure]

theorem omitEmptyInt_WF (name : String) (i : Int) : ∀ m ∈ omitEmptyInt name i, m.2.WF := by
  intro m hm
  unfold omitEmptyInt at hm
  split at hm
  · simp at hm
  · simp only [List.mem_singleton] at hm
    subst hm
    exact WF_encodeInt i

theorem omitEmptyInt_id (ft : FloatText) (q : BasketItem) (i : Int) (hq : q.ID = 0)
    (h : fitsInt i = true) :
    (omitEmptyInt "id" i).foldlM (decodeItemField ft) q = .ok { q with ID := i } := by
  unfold omitEmptyInt
  split
  · rename_i h0
    subst h0
    cases q
    simp only at hq
    subst hq
    rfl
  · exact foldlM_cons_ok _ (decodeItemField_id ft q i h) rfl

theorem omitEmptyInt_instrument_token (ft : FloatText) (q : BasketItem) (i : Int)
    (hq : q.InstrumentToken = 0) (h : fitsInt i = true) :
    (omitEmptyInt "instrument_token" i).foldlM (decodeItemField ft) q
      = .ok { q with InstrumentToken := i } := by
  unfold omitEmptyInt
  split
  · rename_i h0
    subst h0
    cases q
    simp only at hq
    subst hq
    rfl
  · exact foldlM_cons_ok _ (decodeItemField_instrument_token ft q i h) rfl

theorem decodeItem_encodeItem (ft : FloatText) (i : BasketItem)
    (hstr : ∀ s ∈ i.strings, utf8Valid s = true)
    (hint : ∀ n ∈ [i.Weight, i.ID, i.InstrumentToken] ++ i.Params.ints, fitsInt n = true)
    (hfin : ∀ f ∈ i.Params.floats, f.isFinite = true)
    (hrt : ∀ f ∈ i.Params.floats, ft.roundTrips f) :
    ∃ j, encodeItem ft i = .ok j ∧ j.WF ∧ decodeItem ft BasketItem.zero j = .ok i := by
  have hw := hint i.Weight (by simp)
  have hid := hint i.ID (by simp)
  have hit := hint i.InstrumentToken (by simp)
  have s1 := hstr i.Type_ (by simp [BasketItem.strings])
  have s2 := hstr i.TradingSymbol (by simp [BasketItem.strings])
  have s3 := hstr i.Exchange (by simp [BasketItem.strings])
  obtain ⟨jp, hjp, hjpwf, hjpdec⟩ := decodeOrderParams_encodeOrderParams ft i.Params
    (fun s hs => hstr s (List.mem_append_right _ hs))
    (fun n hn => hint n (List.mem_append_right _ hn)) hfin hrt
  have henc : encodeItem ft i = .ok (.obj ([("type".data, encodeString i.Type_),
      ("tradingsymbol".data, encodeString i.TradingSymbol),
      ("exchange".data, encodeString i.Exchange),
      ("weight".data, encodeInt i.Weight),
      ("params".data, jp)] ++ omitEmptyInt "id" i.ID ++
      omitEmptyInt "instrument_token" i.InstrumentToken)) := by
    simp only [encodeItem, hjp, bind, Except.bind, pure, Except.pure]
  refine ⟨_, henc, ?_, ?_⟩
  · apply JSON.WF.obj
    intro m hm
    rcases List.mem_append.mp hm with hm | hm
    · rcases List.mem_append.mp hm with hm | hm
      · simp only [List.mem_cons, List.mem_singleton, List.not_mem_nil, or_false] at hm
        rcases hm with rfl | rfl | rfl | rfl | rfl
        · exact WF_encodeString _ s1
        · exact WF_encodeString _ s2
        · exact WF_encodeString _ s3
        · exact WF_encodeInt _
        · exact hjpwf
      · exact omitEmptyInt_WF _ _ m hm
    · exact omitEmptyInt_WF _ _ m hm
  · have hbase : List.foldlM (decodeItemField ft) BasketItem.zero
        [("type".data, encodeString i.Type_),
         ("tradingsymbol".data, encodeString i.TradingSymbol),
         ("exchange".data, encodeString i.Exchange),
         ("weight".data, encodeInt i.Weight),
         ("params".data, jp)]
        = .ok { Type_ := i.Type_, TradingSymbol := i.TradingSymbol, Exchange := i.Exchange,
                Weight := i.Weight, Params := i.Params, ID := 0, InstrumentToken := 0 } := by
      refine foldlM_cons_ok _ (decodeItemField_type ft _ _ s1) ?_
      refine foldlM_cons_ok _ (decodeItemField_tradingsymbol ft _ _ s2) ?_
      refine foldlM_cons_ok _ (decodeItemField_exchange ft _ _ s3) ?_
      refine foldlM_cons_ok _ (decodeItemField_weight ft _ _ hw) ?_
      refine foldlM_cons_ok _ (decodeItemField_params ft _ jp i.Params (hjpdec _ (by rfl))) ?_
      rfl
    show List.foldlM (decodeItemField ft) BasketItem.zero _ = .ok i
    refine foldlM_append_ok _
      (foldlM_append_ok _ hbase (omitEmptyInt_id ft _ i.ID (by rfl) hid))
      ((omitEmptyInt_instrument_token ft _ i.InstrumentToken (by rfl) hit).trans ?_)
    cases i
    rfl

theorem mapM_decodeItem_encodeItem (ft : FloatText) (xs : List BasketItem)
    (h : ∀ i ∈ xs, ∃ j, encodeItem ft i = .ok j ∧ j.WF ∧
      decodeItem ft BasketItem.zero j = .ok i) :
    ∃ js, xs.mapM (encodeItem ft) = .ok js ∧ (∀ j ∈ js, j.WF) ∧
      js.mapM (decodeItem ft BasketItem.zero) = .ok xs := by
  induction xs with
  | nil => exact ⟨[], rfl, by simp, rfl⟩
  | cons x tl ih =>
    obtain ⟨j, hj, hwf, hdec⟩ := h x (List.mem_cons_self x tl)
    obtain ⟨js, hjs, hjswf, hjsdec⟩ := ih (fun i hi => h i (List.mem_cons_of_mem x hi))
    refine ⟨j :: js, ?_, ?_, ?_⟩
    · simp only [List.mapM_cons, hj, hjs, bind, Except.bind, pure, Except.pure]
    · intro y hy
      rcases List.mem_cons.mp hy with rfl | hy
      · exact hwf
      · exact hjswf y hy
    · simp only [List.mapM_cons, hdec, hjsdec, bind, Except.bind, pure, Except.pure]

/-- Storing the encoding of a basket into a basket gives the basket back. -/
theorem decodeBasket_encodeBasket (ft : FloatText) (b : Basket)
    (hstr : ∀ s ∈ b.strings, utf8Valid s = true)
    (hint : ∀ n ∈ b.ints, fitsInt n = true)
    (hfin : ∀ f ∈ b.floats, f.isFinite = true)
    (hrt : ∀ f ∈ b.floats, ft.roundTrips f) :
    ∃ j, encodeBasket ft b = .ok j ∧ j.WF ∧ ∀ cur, decodeBasket ft cur j = .ok b := by
  have hitems : ∃ ji, encodeItems ft b.Items = .ok ji ∧ ji.WF ∧
      decodeItems ft ji = .ok b.Items := by
    cases hI : b.Items with
    | none => exact ⟨.null, rfl, JSON.WF.null, rfl⟩
    | some xs =>
      have hall : ∀ i ∈ xs, ∃ j, encodeItem ft i = .ok j ∧ j.WF ∧
          decodeItem ft BasketItem.zero j = .ok i := by
        intro i hi
        apply decodeItem_encodeItem
        · intro s hs
          apply hstr
          simp only [Basket.strings, hI, Option.getD_some, List.mem_append, List.mem_flatMap]
          exact Or.inr ⟨i, hi, hs⟩
        · intro n hn
          apply hint
          simp only [Basket.ints, hI, Option.getD_some, List.mem_flatMap]
          exact ⟨i, hi, hn⟩
        · intro f hf
          apply hfin
          simp only [Basket.floats, hI, Option.getD_some, List.mem_flatMap]
          exact ⟨i, hi, hf⟩
        · intro f hf
          apply hrt
          simp only [Basket.floats, hI, Option.getD_some, List.mem_flatMap]
          exact ⟨i, hi, hf⟩
      obtain ⟨js, hjs, hjswf, hjsdec⟩ := mapM_decodeItem_encodeItem ft xs hall
      refine ⟨.arr js, ?_, JSON.WF.arr js hjswf, ?_⟩
      · simp only [encodeItems, hjs, bind, Except.bind, pure, Except.pure]
      · simp only [decodeItems, hjsdec]
  obtain ⟨ji, hji, hjiwf, hjidec⟩ := hitems
  have s1 := hstr b.Name (by simp [Basket.strings])
  have s2 := hstr b.Type_ (by simp [Basket.strings])
  have s3 : ∀ s ∈ b.Tags.getD [], utf8Valid s = true := fun s hs =>
    hstr s (by simp only [Basket.strings, List.mem_append]; exact Or.inl (Or.inr hs))
  have henc : encodeBasket ft b = .ok (.obj [("name".data, encodeString b.Name),
      ("type".data, encodeString b.Type_),
      ("tags".data, encodeStrings b.Tags),
      ("items".data, ji)]) := by
    simp only [encodeBasket, hji, bind, Except.bind, pure, Except.pure]
  refine ⟨_, henc, ?_, ?_⟩
  · apply JSON.WF.obj
    intro m hm
    simp only [List.mem_cons, List.mem_singleton, List.not_mem_nil, or_false] at hm
    rcases hm with rfl | rfl | rfl | rfl
    · exact WF_encodeString _ s1
    · exact WF_encodeString _ s2
    · exact WF_encodeStrings _ s3
    · exact hjiwf
  · intro cur
    show List.foldlM (decodeBasketField ft) cur _ = .ok b
    refine foldlM_cons_ok _ (decodeBasketField_name ft _ _ s1) ?_
    refine foldlM_cons_ok _ (decodeBasketField_type ft _ _ s2) ?_
    refine foldlM_cons_ok _ (decodeBasketField_tags ft _ _ s3) ?_
    refine foldlM_cons_ok _ (decodeBasketField_items ft _ ji b.Items hjidec) ?_
    exact congrArg Except.ok (by cases b; rfl)

/-- The document `json.Marshal` writes for a basket with valid UTF-8 strings
and finite floats reads back, by `json.Unmarshal`, as the basket. -/
theorem jsonUnmarshal_jsonMarshal (ft : FloatText) (b : Basket)
    (hstr : ∀ s ∈ b.strings, utf8Valid s = true)
    (hint : ∀ n ∈ b.ints, fitsInt n = true)
    (hfin : ∀ f ∈ b.floats, f.isFinite = true)
    (hrt : ∀ f ∈ b.floats, ft.roundTrips f) :
    ∃ doc, jsonMarshal ft (some b) = .ok doc ∧ ∀ cur, jsonUnmarshal ft doc cur = .ok b := by
  obtain ⟨j, hj, hwf, hdec⟩ := decodeBasket_encodeBasket ft b hstr hint hfin hrt
  refine ⟨String.mk (render j), ?_, ?_⟩
  · simp only [jsonMarshal, hj]
  · intro cur
    simp only [jsonUnmarshal, parseDocument_render j hwf, hdec]

/-! ## Facts about the JSON model: when encoding fails -/

theorem except_bind_eq_ok {α β : Type} {x : Except String α} {f : α → Except String β} {b : β}
    (h : (x >>= f) = .ok b) : ∃ a, x = .ok a ∧ f a = .ok b := by
  cases x with
  | error e => cases h
  | ok a => exact ⟨a, rfl, h⟩

theorem isFinite_of_encodeFloat {ft : FloatText} {f : Float64} {j : JSON}
    (h : encodeFloat ft f = .ok j) : f.isFinite = true := by
  unfold encodeFloat at h
  split at h
  · cases h
  · rename_i hn
    simpa [Float64.isFinite] using hn

theorem isFinite_of_encodeGTTMember {ft : FloatText} {gtt : Option OrderGTTParams}
    {ms : List (List Char × JSON)} (h : encodeGTTMember ft gtt = .ok ms) :
    ∀ f ∈ gttFloats gtt, f.isFinite = true := by
  cases gtt with
  | none => simp [gttFloats]
  | some g =>
    obtain ⟨j, hj, _⟩ := except_bind_eq_ok h
    obtain ⟨t, ht, h2⟩ := except_bind_eq_ok hj
    obtain ⟨s, hs, _⟩ := except_bind_eq_ok h2
    intro f hf
    simp only [gttFloats, List.mem_cons, List.mem_singleton, List.not_mem_nil, or_false] at hf
    rcases hf with rfl | rfl
    · exact isFinite_of_encodeFloat ht
    · exact isFinite_of_encodeFloat hs

theorem isFinite_of_encodeOrderParams {ft : FloatText} {p : AlertOrderParams} {j : JSON}
    (h : encodeOrderParams ft p = .ok j) : ∀ f ∈ p.floats, f.isFinite = true := by
  obtain ⟨_, h1, h⟩ := except_bind_eq_ok h
  obtain ⟨_, h2, h⟩ := except_bind_eq_ok h
  obtain ⟨_, h3, h⟩ := except_bind_eq_ok h
  obtain ⟨_, h4, h⟩ := except_bind_eq_ok h
  obtain ⟨_, h5, h⟩ := except_bind_eq_ok h
  obtain ⟨_, h6, h⟩ := except_bind_eq_ok h
  obtain ⟨_, h7, h⟩ := except_bind_eq_ok h
  obtain ⟨_, h8, _⟩ := except_bind_eq_ok h
  intro f hf
  simp only [AlertOrderParams.floats, List.mem_append, List.mem_cons, List.mem_singleton,
    List.not_mem_nil, or_false] at hf
  rcases hf with (rfl | rfl | rfl | rfl | rfl | rfl | rfl) | hf
  · exact isFinite_of_encodeFloat h1
  · exact isFinite_of_encodeFloat h2
  · exact isFinite_of_encodeFloat h3
  · exact isFinite_of_encodeFloat h4
  · exact isFinite_of_encodeFloat h5
  · exact isFinite_of_encodeFloat h6
  · exact isFinite_of_encodeFloat h7
  · exact isFinite_of_encodeGTTMember h8 f hf

theorem isFinite_of_mapM_encodeItem {ft : FloatText} (xs : List BasketItem) {js : List JSON}
    (h : xs.mapM (encodeItem ft) = .ok js) :
    ∀ i ∈ xs, ∀ f ∈ i.Params.floats, f.isFinite = true := by
  induction xs generalizing js with
  | nil => simp
  | cons x tl ih =>
    rw [List.mapM_cons] at h
    obtain ⟨j, hj, h⟩ := except_bind_eq_ok h
    obtain ⟨js2, hjs, _⟩ := except_bind_eq_ok h
    obtain ⟨jp, hjp, _⟩ := except_bind_eq_ok hj
    intro i hi
    rcases List.mem_cons.mp hi with rfl | hi
    · exact isFinite_of_encodeOrderParams hjp
    · exact ih hjs i hi

/-- When `json.Marshal` succeeds on a basket, every float of the basket is
finite. -/
theorem isFinite_of_jsonMarshal {ft : FloatText} {b : Basket} {doc : String}
    (h : jsonMarshal ft (some b) = .ok doc) : ∀ f ∈ b.floats, f.isFinite = true := by
  unfold jsonMarshal at h
  cases hb : encodeBasket ft b with
  | error e => simp [hb] at h
  | ok j =>
    obtain ⟨ji, hji, _⟩ := except_bind_eq_ok hb
    intro f hf
    cases hI : b.Items with
    | none => simp [Basket.floats, hI] at hf
    | some xs =>
      rw [hI] at hji
      obtain ⟨js, hjs, _⟩ := except_bind_eq_ok hji
      simp only [Basket.floats, hI, Option.getD_some, List.mem_flatMap] at hf
      obtain ⟨i, hi, hfi⟩ := hf
      exact isFinite_of_mapM_encodeItem xs hjs i hi f hfi

/-- When some float of a basket is NaN or infinite, `json.Marshal` reports an
error. -/
theorem jsonMarshal_error_of_not_finite (ft : FloatText) (b : Basket)
    (h : ∃ f ∈ b.floats, f.isFinite = false) : ∃ e, jsonMarshal ft (some b) = .error e := by
  cases hm : jsonMarshal ft (some b) with
  | error e => exact ⟨e, rfl⟩
  | ok doc =>
    obtain ⟨f, hf, hnf⟩ := h
    have := isFinite_of_jsonMarshal hm f hf
    rw [hnf] at this
    cases this

theorem encodeGTTMember_ok (ft : FloatText) (gtt : Option OrderGTTParams)
    (hfin : ∀ f ∈ gttFloats gtt, f.isFinite = true) :
    ∃ ms, encodeGTTMember ft gtt = .ok ms := by
  cases gtt with
  | none => exact ⟨[], rfl⟩
  | some g =>
    simp only [gttFloats, List.mem_cons, List.mem_singleton, List.not_mem_nil, or_false,
      forall_eq_or_imp, forall_eq] at hfin
    simp only [encodeGTTMember, encodeGTT, encodeFloat_finite, hfin.1, hfin.2, bind,
      Except.bind, pure, Except.pure]
    exact ⟨_, rfl⟩

theorem encodeOrderParams_ok (ft : FloatText) (p : AlertOrderParams)
    (hfin : ∀ f ∈ p.floats, f.isFinite = true) : ∃ j, encodeOrderParams ft p = .ok j := by
  simp only [AlertOrderParams.floats, List.mem_append, List.mem_cons, List.mem_singleton,
    List.not_mem_nil, or_false] at hfin
  have f1 := hfin p.Price (by simp)
  have f2 := hfin p.TriggerPrice (by simp)
  have f3 := hfin p.LastPrice (by simp)
  have f4 := hfin p.Squareoff (by simp)
  have f5 := hfin p.Stoploss (by simp)
  have f6 := hfin p.TrailingStoploss (by simp)
  have f7 := hfin p.MarketProtection (by simp)
  obtain ⟨ms, hms⟩ := encodeGTTMember_ok ft p.GTT (fun f hf => hfin f (Or.inr hf))
  simp only [encodeOrderParams, encodeFloat_finite, f1, f2, f3, f4, f5, f6, f7, hms, bind,
    Except.bind, pure, Except.pure]
  exact ⟨_, rfl⟩

theorem mapM_encodeItem_ok (ft : FloatText) (xs : List BasketItem)
    (hfin : ∀ i ∈ xs, ∀ f ∈ i.Params.floats, f.isFinite = true) :
    ∃ js, xs.mapM (encodeItem ft) = .ok js := by
  induction xs with
  | nil => exact ⟨[], rfl⟩
  | cons x tl ih =>
    obtain ⟨jp, hjp⟩ := encodeOrderParams_ok ft x.Params (hfin x (List.mem_cons_self x tl))
    obtain ⟨js, hjs⟩ := ih (fun i hi => hfin i (List.mem_cons_of_mem x hi))
    simp only [List.mapM_cons, encodeItem, hjp, hjs, bind, Except.bind, pure, Except.pure]
    exact ⟨_, rfl⟩

/-- When every float of a basket is finite, `json.Marshal` writes a document. -/
theorem jsonMarshal_ok_of_finite (ft : FloatText) (b : Basket)
    (hfin : ∀ f ∈ b.floats, f.isFinite = true) : ∃ doc, jsonMarshal ft (some b) = .ok doc := by
  have hitems : ∃ ji, encodeItems ft b.Items = .ok ji := by
    cases hI : b.Items with
    | none => exact ⟨.null, rfl⟩
    | some xs =>
      obtain ⟨js, hjs⟩ := mapM_encodeItem_ok ft xs (fun i hi f hf => hfin f (by
        simp only [Basket.floats, hI, Option.getD_some, List.mem_flatMap]
        exact ⟨i, hi, hf⟩))
      refine ⟨.arr js, ?_⟩
      simp only [encodeItems, hjs, bind, Except.bind, pure, Except.pure]
  obtain ⟨ji, hji⟩ := hitems
  simp only [jsonMarshal, encodeBasket, hji, bind, Except.bind, pure, Except.pure]
  exact ⟨_, rfl⟩

/-! ## The claims -/

set_option maxRecDepth 100000

/-- C1: with `RHSType = "constant"` the form values built by `CreateAlert` and
`ModifyAlert`, which are the values of every request they hand to the
executor, hold under `rhs_constant` exactly one value, the `%v` formatting of
`RHSConstant`, and hold none of `rhs_exchange`, `rhs_tradingsymbol`,
`rhs_attribute`; unless marshaling the basket fails, exactly one request is
handed over. -/
theorem C1_constant_rhs {Time : Type} (zeroTime : Time) (lib : StdLib) (c : Client)
    (uuid : String) (p : AlertParams) (h : p.RHSType = "constant") :
    ∀ o ∈ [CreateAlert zeroTime lib c p, ModifyAlert zeroTime lib c uuid p],
      (∀ r ∈ o.calls, r.params = o.values) ∧
      (¬ marshalFails lib p → ∃ r, o.calls = [r]) ∧
      o.values.lookup "rhs_constant" = some [lib.sprintfV p.RHSConstant] ∧
      o.values.Has "rhs_exchange" = false ∧
      o.values.Has "rhs_tradingsymbol" = false ∧
      o.values.Has "rhs_attribute" = false := by
  have key : ∀ (o : Outcome (Alert Time)) (method uri : String),
      endsAsBuilt o lib c p method uri (Alert.zero zeroTime) →
      (∀ r ∈ o.calls, r.params = o.values) ∧
      (¬ marshalFails lib p → ∃ r, o.calls = [r]) ∧
      o.values.lookup "rhs_constant" = some [lib.sprintfV p.RHSConstant] ∧
      o.values.Has "rhs_exchange" = false ∧
      o.values.Has "rhs_tradingsymbol" = false ∧
      o.values.Has "rhs_attribute" = false := by
    intro o method uri e
    obtain ⟨h1, h2, h3, h4⟩ := scalarValues_constant lib p h
    refine ⟨(endsAsBuilt_calls e).1, fun hn => ⟨_, ((endsAsBuilt_calls e).2 hn).1⟩, ?_, ?_, ?_, ?_⟩
    · rw [endsAsBuilt_lookup e _ (by decide), h1]
    · unfold Values.Has
      rw [endsAsBuilt_lookup e _ (by decide), h2]; rfl
    · unfold Values.Has
      rw [endsAsBuilt_lookup e _ (by decide), h3]; rfl
    · unfold Values.Has
      rw [endsAsBuilt_lookup e _ (by decide), h4]; rfl
  intro o ho
  simp only [List.mem_cons, List.mem_singleton, List.not_mem_nil, or_false] at ho
  rcases ho with rfl | rfl
  · exact key _ _ _ (CreateAlert_ends zeroTime lib c p)
  · exact key _ _ _ (ModifyAlert_ends zeroTime lib c uuid p)

/-- Witness of C1 at the parameters of `TestCreateAlert`: the request carries
`rhs_constant=27000`. -/
theorem C1_constant_rhs_witness :
    testCreateParams.RHSType = "constant" ∧
    (CreateAlert () sampleLib okClient testCreateParams).values.lookup "rhs_constant"
      = some ["27000"] ∧
    (CreateAlert () sampleLib okClient testCreateParams).values.Has "rhs_exchange" = false :=
  have h := C1_constant_rhs () sampleLib okClient testUUID testCreateParams rfl
    (CreateAlert () sampleLib okClient testCreateParams) (by simp)
  ⟨rfl, h.2.2.1, h.2.2.2.1⟩

/-- C2: with `RHSType = "instrument"` the form values built by `CreateAlert`
and `ModifyAlert`, which are the values of every request they hand to the
executor, map `rhs_exchange`, `rhs_tradingsymbol` and `rhs_attribute` to
exactly `RHSExchange`, `RHSTradingSymbol` and `RHSAttribute`, and the key
`rhs_constant` is absent; unless marshaling the basket fails, exactly one
request is handed over. -/
theorem C2_instrument_rhs {Time : Type} (zeroTime : Time) (lib : StdLib) (c : Client)
    (uuid : String) (p : AlertParams) (h : p.RHSType = "instrument") :
    ∀ o ∈ [CreateAlert zeroTime lib c p, ModifyAlert zeroTime lib c uuid p],
      (∀ r ∈ o.calls, r.params = o.values) ∧
      (¬ marshalFails lib p → ∃ r, o.calls = [r]) ∧
      o.values.lookup "rhs_exchange" = some [p.RHSExchange] ∧
      o.values.lookup "rhs_tradingsymbol" = some [p.RHSTradingSymbol] ∧
      o.values.lookup "rhs_attribute" = some [p.RHSAttribute] ∧
      o.values.Has "rhs_constant" = false := by
  have key : ∀ (o : Outcome (Alert Time)) (method uri : String),
      endsAsBuilt o lib c p method uri (Alert.zero zeroTime) →
      (∀ r ∈ o.calls, r.params = o.values) ∧
      (¬ marshalFails lib p → ∃ r, o.calls = [r]) ∧
      o.values.lookup "rhs_exchange" = some [p.RHSExchange] ∧
      o.values.lookup "rhs_tradingsymbol" = some [p.RHSTradingSymbol] ∧
      o.values.lookup "rhs_attribute" = some [p.RHSAttribute] ∧
      o.values.Has "rhs_constant" = false := by
    intro o method uri e
    obtain ⟨h1, h2, h3, h4⟩ := scalarValues_instrument lib p h
    refine ⟨(endsAsBuilt_calls e).1, fun hn => ⟨_, ((endsAsBuilt_calls e).2 hn).1⟩, ?_, ?_, ?_, ?_⟩
    · rw [endsAsBuilt_lookup e _ (by decide), h2]
    · rw [endsAsBuilt_lookup e _ (by decide), h3]
    · rw [endsAsBuilt_lookup e _ (by decide), h4]
    · unfold Values.Has
      rw [endsAsBuilt_lookup e _ (by decide), h1]; rfl
  intro o ho
  simp only [List.mem_cons, List.mem_singleton, List.not_mem_nil, or_false] at ho
  rcases ho with rfl | rfl
  · exact key _ _ _ (CreateAlert_ends zeroTime lib c p)
  · exact key _ _ _ (ModifyAlert_ends zeroTime lib c uuid p)

/-- Witness of C2: an alert against the instrument `NSE:INFY`, modified. -/
theorem C2_instrument_rhs_witness :
    instrumentParams.RHSType = "instrument" ∧
    (ModifyAlert () sampleLib okClient testUUID instrumentParams).values.lookup
      "rhs_tradingsymbol" = some ["INFY"] ∧
    (ModifyAlert () sampleLib okClient testUUID instrumentParams).values.Has
      "rhs_constant" = false :=
  have h := C2_instrument_rhs () sampleLib okClient testUUID instrumentParams rfl
    (ModifyAlert () sampleLib okClient testUUID instrumentParams) (by simp)
  ⟨rfl, h.2.2.2.1, h.2.2.2.2.2⟩

/-- C3: the form values built by `CreateAlert` and `ModifyAlert`, which are
the values of every request they hand to the executor, map each of `name`,
`type`, `lhs_exchange`, `lhs_tradingsymbol`, `lhs_attribute`, `operator`,
`rhs_type` to exactly one value, the corresponding field of the parameters
unchanged; unless marshaling the basket fails, exactly one request is handed
over. -/
theorem C3_seven_scalars_verbatim {Time : Type} (zeroTime : Time) (lib : StdLib)
    (c : Client) (uuid : String) (p : AlertParams) :
    ∀ o ∈ [CreateAlert zeroTime lib c p, ModifyAlert zeroTime lib c uuid p],
      (∀ r ∈ o.calls, r.params = o.values) ∧
      (¬ marshalFails lib p → ∃ r, o.calls = [r]) ∧
      o.values.lookup "name" = some [p.Name] ∧
      o.values.lookup "type" = some [p.Type_] ∧
      o.values.lookup "lhs_exchange" = some [p.LHSExchange] ∧
      o.values.lookup "lhs_tradingsymbol" = some [p.LHSTradingSymbol] ∧
      o.values.lookup "lhs_attribute" = some [p.LHSAttribute] ∧
      o.values.lookup "operator" = some [p.Operator] ∧
      o.values.lookup "rhs_type" = some [p.RHSType] := by
  have key : ∀ (o : Outcome (Alert Time)) (method uri : String),
      endsAsBuilt o lib c p method uri (Alert.zero zeroTime) →
      (∀ r ∈ o.calls, r.params = o.values) ∧
      (¬ marshalFails lib p → ∃ r, o.calls = [r]) ∧
      o.values.lookup "name" = some [p.Name] ∧
      o.values.lookup "type" = some [p.Type_] ∧
      o.values.lookup "lhs_exchange" = some [p.LHSExchange] ∧
      o.values.lookup "lhs_tradingsymbol" = some [p.LHSTradingSymbol] ∧
      o.values.lookup "lhs_attribute" = some [p.LHSAttribute] ∧
      o.values.lookup "operator" = some [p.Operator] ∧
      o.values.lookup "rhs_type" = some [p.RHSType] := by
    intro o method uri e
    obtain ⟨h1, h2, h3, h4, h5, h6, h7⟩ := scalarValues_seven lib p
    refine ⟨(endsAsBuilt_calls e).1, fun hn => ⟨_, ((endsAsBuilt_calls e).2 hn).1⟩,
      ?_, ?_, ?_, ?_, ?_, ?_, ?_⟩
    · rw [endsAsBuilt_lookup e _ (by decide), h1]
    · rw [endsAsBuilt_lookup e _ (by decide), h2]
    · rw [endsAsBuilt_lookup e _ (by decide), h3]
    · rw [endsAsBuilt_lookup e _ (by decide), h4]
    · rw [endsAsBuilt_lookup e _ (by decide), h5]
    · rw [endsAsBuilt_lookup e _ (by decide), h6]
    · rw [endsAsBuilt_lookup e _ (by decide), h7]
  intro o ho
  simp only [List.mem_cons, List.mem_singleton, List.not_mem_nil, or_false] at ho
  rcases ho with rfl | rfl
  · exact key _ _ _ (CreateAlert_ends zeroTime lib c p)
  · exact key _ _ _ (ModifyAlert_ends zeroTime lib c uuid p)

/-- Witness of C3 at the parameters of `TestCreateAlert`: the request carries
`operator=>=`. -/
theorem C3_seven_scalars_verbatim_witness :
    (CreateAlert () sampleLib okClient testCreateParams).values.lookup "operator"
      = some [">="] ∧
    (CreateAlert () sampleLib okClient testCreateParams).values.lookup "name"
      = some ["NIFTY 50"] :=
  have h := C3_seven_scalars_verbatim () sampleLib okClient testUUID testCreateParams
    (CreateAlert () sampleLib okClient testCreateParams) (by simp)
  ⟨h.2.2.2.2.2.2.2.1, h.2.2.1⟩

/-- C4: for an alert whose type is not `ato`, `CreateAlert` and `ModifyAlert`
build form values without a `basket` key, whether or not a basket was
supplied, and do not fail locally: each hands exactly one request with these
values to the executor and returns what the executor returns. -/
theorem C4_no_basket_unless_ato {Time : Type} (zeroTime : Time) (lib : StdLib)
    (c : Client) (uuid : String) (p : AlertParams) (h : p.Type_ ≠ AlertTypeATO) :
    (CreateAlert zeroTime lib c p).values.Has "basket" = false ∧
    (CreateAlert zeroTime lib c p).sentOnce c "POST" "/alerts" (Alert.zero zeroTime) ∧
    (ModifyAlert zeroTime lib c uuid p).values.Has "basket" = false ∧
    (ModifyAlert zeroTime lib c uuid p).sentOnce c "PUT" ("/alerts/" ++ uuid)
      (Alert.zero zeroTime) := by
  have key : ∀ (o : Outcome (Alert Time)) (method uri : String),
      endsAsBuilt o lib c p method uri (Alert.zero zeroTime) →
      o.values.Has "basket" = false ∧ o.sentOnce c method uri (Alert.zero zeroTime) := by
    intro o method uri e
    have hn : ¬ marshalFails lib p := fun hf => h hf.1
    refine ⟨?_, (endsAsBuilt_calls e).2 hn⟩
    rcases e with ⟨hf, _⟩ | ⟨_, _, ⟨_, hv⟩ | ⟨ha, _⟩⟩
    · exact absurd hf hn
    · unfold Values.Has
      rw [hv, scalarValues_basket]; rfl
    · exact absurd ha h
  exact ⟨(key _ _ _ (CreateAlert_ends zeroTime lib c p)).1,
    (key _ _ _ (CreateAlert_ends zeroTime lib c p)).2,
    (key _ _ _ (ModifyAlert_ends zeroTime lib c uuid p)).1,
    (key _ _ _ (ModifyAlert_ends zeroTime lib c uuid p)).2⟩

/-- Witness of C4: a simple alert with a basket supplied is sent without a
`basket` field. -/
theorem C4_no_basket_unless_ato_witness :
    simpleWithBasketParams.Type_ ≠ AlertTypeATO ∧
    simpleWithBasketParams.Basket ≠ none ∧
    (CreateAlert () sampleLib okClient simpleWithBasketParams).values.Has "basket" = false ∧
    (CreateAlert () sampleLib okClient simpleWithBasketParams).sentOnce okClient
      "POST" "/alerts" (Alert.zero ()) :=
  have h := C4_no_basket_unless_ato () sampleLib okClient testUUID simpleWithBasketParams
    (by decide)
  ⟨by decide, by decide, h.1, h.2.1⟩

/-- C5, as the code has it: for an ATO alert with a basket, when every float
of the basket is finite, `CreateAlert` and `ModifyAlert` hand exactly one
request to the executor, whose form values hold under `basket` exactly one
value, the document `json.Marshal` writes for the basket; when moreover every
string of the basket is valid UTF-8 and every integer a Go `int` value, and
the `strconv` text of every float of the basket is a JSON number that reads
back as the float, `json.Unmarshal` decodes that document into a basket equal
to the original; when some float of the basket is NaN or infinite, they fail
locally and the form values hold no `basket` key. -/
theorem C5_basket_round_trip {Time : Type} (zeroTime : Time) (sprintfV : Float64 → String)
    (ft : FloatText) (c : Client) (uuid : String) (p : AlertParams) (b : Basket)
    (hato : p.Type_ = AlertTypeATO) (hb : p.Basket = some b) :
    ∀ o ∈ [CreateAlert zeroTime ⟨sprintfV, jsonMarshal ft⟩ c p,
        ModifyAlert zeroTime ⟨sprintfV, jsonMarshal ft⟩ c uuid p],
      ((∀ f ∈ b.floats, f.isFinite = true) →
        (∃ r, o.calls = [r] ∧ r.params = o.values) ∧
        ∃ doc, jsonMarshal ft (some b) = .ok doc ∧
          o.values.lookup "basket" = some [doc] ∧
          ((∀ s ∈ b.strings, utf8Valid s = true) →
            (∀ n ∈ b.ints, fitsInt n = true) →
            (∀ f ∈ b.floats, ft.roundTrips f) →
            jsonUnmarshal ft doc Basket.zero = .ok b)) ∧
      ((∃ f ∈ b.floats, f.isFinite = false) →
        o.failedLocally ∧ o.values.Has "basket" = false) := by
  have key : ∀ (o : Outcome (Alert Time)) (method uri : String),
      endsAsBuilt o ⟨sprintfV, jsonMarshal ft⟩ c p method uri (Alert.zero zeroTime) →
      ((∀ f ∈ b.floats, f.isFinite = true) →
        (∃ r, o.calls = [r] ∧ r.params = o.values) ∧
        ∃ doc, jsonMarshal ft (some b) = .ok doc ∧
          o.values.lookup "basket" = some [doc] ∧
          ((∀ s ∈ b.strings, utf8Valid s = true) →
            (∀ n ∈ b.ints, fitsInt n = true) →
            (∀ f ∈ b.floats, ft.roundTrips f) →
            jsonUnmarshal ft doc Basket.zero = .ok b)) ∧
      ((∃ f ∈ b.floats, f.isFinite = false) →
        o.failedLocally ∧ o.values.Has "basket" = false) := by
    intro o method uri e
    constructor
    · intro hfin
      obtain ⟨doc, hdoc⟩ := jsonMarshal_ok_of_finite ft b hfin
      have hback : (∀ s ∈ b.strings, utf8Valid s = true) →
          (∀ n ∈ b.ints, fitsInt n = true) →
          (∀ f ∈ b.floats, ft.roundTrips f) →
          jsonUnmarshal ft doc Basket.zero = .ok b := by
        intro hstr hint hrt
        obtain ⟨doc2, hdoc2, hread⟩ := jsonUnmarshal_jsonMarshal ft b hstr hint hfin hrt
        rw [hdoc] at hdoc2
        cases hdoc2
        exact hread Basket.zero
      rcases e with ⟨⟨_, _, e2, he2⟩, _⟩ | ⟨_, hs, ⟨hnb, _⟩ | ⟨_, _, j, hj, hv⟩⟩
      · simp only [hb, hdoc] at he2
        cases he2
      · exact absurd ⟨hato, by simp [hb]⟩ hnb
      · simp only [hb, hdoc] at hj
        cases hj
        refine ⟨⟨_, hs.1, rfl⟩, doc, hdoc, ?_, hback⟩
        rw [hv, Values.lookup_Set, if_pos rfl]
    · intro hnf
      obtain ⟨e1, he1⟩ := jsonMarshal_error_of_not_finite ft b hnf
      rcases e with ⟨_, hv, hc, e2, _, herr⟩ | ⟨hn, _⟩
      · refine ⟨⟨by simp [herr], hc⟩, ?_⟩
        unfold Values.Has
        rw [hv, scalarValues_basket]
        rfl
      · exact absurd ⟨hato, by simp [hb], e1, by simp only [hb, he1]⟩ hn
  intro o ho
  simp only [List.mem_cons, List.mem_singleton, List.not_mem_nil, or_false] at ho
  rcases ho with rfl | rfl
  · exact key _ _ _ (CreateAlert_ends zeroTime _ c p)
  · exact key _ _ _ (ModifyAlert_ends zeroTime _ c uuid p)

/-- Witness of C5, as the code has it, at an ATO alert with a one-leg basket
whose strings are valid UTF-8 and whose floats are finite: the document under
`basket` is the one Go writes, and it decodes back into the basket. -/
theorem C5_basket_round_trip_witness :
    atoParams.Type_ = AlertTypeATO ∧ atoParams.Basket = some sampleBasket ∧
    (∀ f ∈ sampleBasket.floats, f.isFinite = true) ∧
    (∀ s ∈ sampleBasket.strings, utf8Valid s = true) ∧
    (∀ n ∈ sampleBasket.ints, fitsInt n = true) ∧
    (∀ f ∈ sampleBasket.floats, sampleFloatText.roundTrips f) ∧
    (CreateAlert () sampleLib okClient atoParams).values.lookup "basket"
      = some [sampleBasketDocument] ∧
    jsonUnmarshal sampleFloatText sampleBasketDocument Basket.zero = .ok sampleBasket :=
  have hdoc : (CreateAlert () sampleLib okClient atoParams).values.lookup "basket"
      = some [sampleBasketDocument] := by decide
  have h := (C5_basket_round_trip () sampleSprintfV sampleFloatText okClient testUUID atoParams
    sampleBasket rfl rfl (CreateAlert () sampleLib okClient atoParams)
    (by simp [sampleLib])).1 (by decide)
  ⟨rfl, rfl, by decide, by decide, by decide, by decide, hdoc,
    match h.2 with
    | ⟨doc, _, hl, hread⟩ => by
      have hd : doc = sampleBasketDocument := by
        rw [hdoc] at hl
        simpa using hl.symm
      subst hd
      exact hread (by decide) (by decide) (by decide)⟩

/-- Counterexample to C5 as stated, at two ATO alerts with a basket.  Where the
basket holds a NaN price, `CreateAlert` builds no `basket` field: it returns
the marshaling error and hands nothing to the executor.  Where the name of the
basket is the byte `0xFF`, which is not valid UTF-8, `CreateAlert` sends the
request, the document under `basket` holds `\ufffd` for the name, and
`json.Unmarshal` decodes it into a basket whose name is the three bytes of
U+FFFD, not the original. -/
theorem C5_counterexample :
    (nanPriceParams.Type_ = "ato" ∧ nanPriceParams.Basket ≠ none ∧
      (CreateAlert () sampleLib okClient nanPriceParams).values.Has "basket" = false ∧
      (CreateAlert () sampleLib okClient nanPriceParams).calls = [] ∧
      (CreateAlert () sampleLib okClient nanPriceParams).err
        = some "error marshaling basket: json: unsupported value: NaN") ∧
    (invalidNameParams.Type_ = "ato" ∧ invalidNameParams.Basket = some invalidNameBasket ∧
      (CreateAlert () sampleLib okClient invalidNameParams).err = none ∧
      (CreateAlert () sampleLib okClient invalidNameParams).values.lookup "basket"
        = some [invalidNameDocument] ∧
      jsonUnmarshal sampleFloatText invalidNameDocument Basket.zero
        = .ok { invalidNameBasket with Name := [0xEF, 0xBF, 0xBD] } ∧
      jsonUnmarshal sampleFloatText invalidNameDocument Basket.zero
        ≠ .ok invalidNameBasket) := by
  refine ⟨⟨rfl, by decide, ?_, ?_, ?_⟩, rfl, rfl, ?_, ?_, ?_, ?_⟩
  · decide
  · decide
  · decide
  · decide
  · decide
  · rfl
  · intro h
    have h2 : jsonUnmarshal sampleFloatText invalidNameDocument Basket.zero
        = .ok { invalidNameBasket with Name := [0xEF, 0xBF, 0xBD] } := by rfl
    rw [h2] at h
    have h3 := congrArg (fun r => match r with
      | Except.ok x => x.Name.length
      | Except.error _ => 0) h
    exact absurd h3 (by decide)

/-- C6, as the code has it: for an ATO alert without a basket, `CreateAlert`
and `ModifyAlert` do not fail locally; each hands exactly one request to the
executor, whose form values have no `basket` key, and returns what the
executor returns. -/
theorem C6_ato_without_basket_is_sent {Time : Type} (zeroTime : Time) (lib : StdLib)
    (c : Client) (uuid : String) (p : AlertParams)
    (_h1 : p.Type_ = AlertTypeATO) (h2 : p.Basket = none) :
    (CreateAlert zeroTime lib c p).values.Has "basket" = false ∧
    (CreateAlert zeroTime lib c p).sentOnce c "POST" "/alerts" (Alert.zero zeroTime) ∧
    (ModifyAlert zeroTime lib c uuid p).values.Has "basket" = false ∧
    (ModifyAlert zeroTime lib c uuid p).sentOnce c "PUT" ("/alerts/" ++ uuid)
      (Alert.zero zeroTime) := by
  have key : ∀ (o : Outcome (Alert Time)) (method uri : String),
      endsAsBuilt o lib c p method uri (Alert.zero zeroTime) →
      o.values.Has "basket" = false ∧ o.sentOnce c method uri (Alert.zero zeroTime) := by
    intro o method uri e
    have hn : ¬ marshalFails lib p := fun hf => hf.2.1 h2
    refine ⟨?_, (endsAsBuilt_calls e).2 hn⟩
    rcases e with ⟨hf, _⟩ | ⟨_, _, ⟨_, hv⟩ | ⟨_, hb, _⟩⟩
    · exact absurd hf hn
    · unfold Values.Has
      rw [hv, scalarValues_basket]; rfl
    · exact absurd h2 hb
  exact ⟨(key _ _ _ (CreateAlert_ends zeroTime lib c p)).1,
    (key _ _ _ (CreateAlert_ends zeroTime lib c p)).2,
    (key _ _ _ (ModifyAlert_ends zeroTime lib c uuid p)).1,
    (key _ _ _ (ModifyAlert_ends zeroTime lib c uuid p)).2⟩

/-- Witness of C6, as the code has it, at an ATO alert without a basket. -/
theorem C6_ato_without_basket_is_sent_witness :
    atoNoBasketParams.Type_ = AlertTypeATO ∧ atoNoBasketParams.Basket = none ∧
    (CreateAlert () sampleLib okClient atoNoBasketParams).values.Has "basket" = false ∧
    (CreateAlert () sampleLib okClient atoNoBasketParams).sentOnce okClient "POST" "/alerts"
      (Alert.zero ()) :=
  have h := C6_ato_without_basket_is_sent () sampleLib okClient testUUID atoNoBasketParams
    rfl rfl
  ⟨rfl, rfl, h.1, h.2.1⟩

/-- Counterexample to C6 as stated: for an ATO alert without a basket
`CreateAlert` returns no error and hands the executor a request without a
`basket` field. -/
theorem C6_counterexample :
    atoNoBasketParams.Type_ = "ato" ∧ atoNoBasketParams.Basket = none ∧
    (CreateAlert () sampleLib okClient atoNoBasketParams).err = none ∧
    (CreateAlert () sampleLib okClient atoNoBasketParams).calls =
      [⟨"POST", "/alerts",
        [("name", ["NIFTY 50"]), ("type", ["ato"]), ("lhs_exchange", ["INDICES"]),
         ("lhs_tradingsymbol", ["NIFTY 50"]), ("lhs_attribute", ["LastTradedPrice"]),
         ("operator", [">="]), ("rhs_type", ["constant"]), ("rhs_constant", ["27000"])],
        none⟩] := by
  refine ⟨rfl, rfl, rfl, ?_⟩
  decide

/-- C7: `DeleteAlert` with zero uuids returns a non-nil error and hands
nothing to the executor; with at least one uuid it hands exactly one request
to the executor and returns the executor's error. -/
theorem C7_delete_requires_uuid (c : Client) (uuids : List String) :
    (DeleteAlert c []).err = some "at least one uuid must be provided" ∧
    (DeleteAlert c []).calls = [] ∧
    (uuids ≠ [] → ∃ r, (DeleteAlert c uuids).calls = [r] ∧
      (DeleteAlert c uuids).err = (c.doEnvelope r (⟨"", none⟩ : DeleteResp)).2) := by
  refine ⟨rfl, rfl, ?_⟩
  intro h
  have hl : uuids.length ≠ 0 := by
    intro h0
    exact h (List.length_eq_zero.mp h0)
  simp [DeleteAlert, hl]

/-- Witness of C7 at the uuid of the test suite. -/
theorem C7_delete_requires_uuid_witness :
    [testUUID] ≠ [] ∧ (DeleteAlert okClient []).calls = [] ∧
    ∃ r, (DeleteAlert okClient [testUUID]).calls = [r] ∧
      (DeleteAlert okClient [testUUID]).err
        = (okClient.doEnvelope r (⟨"", none⟩ : DeleteResp)).2 :=
  have h := C7_delete_requires_uuid okClient [testUUID]
  ⟨by simp, h.2.1, h.2.2 (by simp)⟩

/-- C8: for a non-empty list of uuids `DeleteAlert` hands exactly one request
to the executor, `DELETE /alerts`, whose parameters are the single key `uuid`
holding the supplied uuids in order, duplicates kept, and returns the
executor's error unchanged. -/
theorem C8_delete_is_one_bulk_call (c : Client) (uuids : List String) (h : uuids ≠ []) :
    (DeleteAlert c uuids).calls = [⟨"DELETE", "/alerts", [("uuid", uuids)], none⟩] ∧
    (DeleteAlert c uuids).err =
      (c.doEnvelope ⟨"DELETE", "/alerts", [("uuid", uuids)], none⟩
        (⟨"", none⟩ : DeleteResp)).2 := by
  have hl : uuids.length ≠ 0 := by
    intro h0
    exact h (List.length_eq_zero.mp h0)
  obtain ⟨u, us, rfl⟩ := List.exists_cons_of_ne_nil h
  have hp : List.foldl (fun params uuid => Values.Add params "uuid" uuid) [] (u :: us)
      = [("uuid", u :: us)] := by
    have := Values.foldl_Add_uuid us [] u
    simpa [List.foldl, Values.Add] using this
  simp only [DeleteAlert, hl, if_false, hp]
  exact ⟨rfl, rfl⟩

/-- Witness of C8: two uuids, one of them twice. -/
theorem C8_delete_is_one_bulk_call_witness :
    ["a", "b", "a"] ≠ [] ∧
    (DeleteAlert okClient ["a", "b", "a"]).calls
      = [⟨"DELETE", "/alerts", [("uuid", ["a", "b", "a"])], none⟩] :=
  ⟨by simp, (C8_delete_is_one_bulk_call okClient ["a", "b", "a"] (by simp)).1⟩

/-- C9: `CreateAlert(p)` and `ModifyAlert(u, p)` build the same form values and
fail locally in the same cases, with the same error; otherwise each hands the
executor exactly one request with these values, `POST /alerts` for create and
`PUT /alerts/u` for modify. -/
theorem C9_create_modify_same_payload {Time : Type} (zeroTime : Time) (lib : StdLib)
    (c : Client) (uuid : String) (p : AlertParams) :
    (CreateAlert zeroTime lib c p).values = (ModifyAlert zeroTime lib c uuid p).values ∧
    ((CreateAlert zeroTime lib c p).failedLocally ↔
      (ModifyAlert zeroTime lib c uuid p).failedLocally) ∧
    (((CreateAlert zeroTime lib c p).failedLocally ∧
        (ModifyAlert zeroTime lib c uuid p).failedLocally ∧
        (CreateAlert zeroTime lib c p).err = (ModifyAlert zeroTime lib c uuid p).err) ∨
     ((CreateAlert zeroTime lib c p).calls =
        [⟨"POST", "/alerts", (CreateAlert zeroTime lib c p).values, none⟩] ∧
      (ModifyAlert zeroTime lib c uuid p).calls =
        [⟨"PUT", "/alerts/" ++ uuid, (CreateAlert zeroTime lib c p).values, none⟩])) := by
  have hc := CreateAlert_ends zeroTime lib c p
  have hm := ModifyAlert_ends zeroTime lib c uuid p
  rcases hc with ⟨hf, hcv, hcc, e, he, hce⟩ | ⟨hn, hcs, hcr⟩
  · rcases hm with ⟨_, hmv, hmc, e2, he2, hme⟩ | ⟨hn, _⟩
    · have hee : e = e2 := by
        rw [he] at he2
        exact Except.error.inj he2
      subst hee
      have fc : (CreateAlert zeroTime lib c p).failedLocally := ⟨by simp [hce], hcc⟩
      have fm : (ModifyAlert zeroTime lib c uuid p).failedLocally := ⟨by simp [hme], hmc⟩
      exact ⟨by rw [hcv, hmv], ⟨fun _ => fm, fun _ => fc⟩, Or.inl ⟨fc, fm, by rw [hce, hme]⟩⟩
    · exact absurd hf hn
  · rcases hm with ⟨hf, _⟩ | ⟨_, hms, hmr⟩
    · exact absurd hf hn
    · have hv : (CreateAlert zeroTime lib c p).values
          = (ModifyAlert zeroTime lib c uuid p).values := by
        rcases hcr with ⟨hnb, h1⟩ | ⟨ha, hb, j, hj, h1⟩
        · rcases hmr with ⟨_, h2⟩ | ⟨ha, hb, _⟩
          · rw [h1, h2]
          · exact absurd (And.intro ha hb) hnb
        · rcases hmr with ⟨hnb, _⟩ | ⟨_, _, j2, hj2, h2⟩
          · exact absurd (And.intro ha hb) hnb
          · have hjj : j = j2 := by
              rw [hj] at hj2
              exact Except.ok.inj hj2
            rw [h1, h2, hjj]
      have nc : ¬ (CreateAlert zeroTime lib c p).failedLocally := by
        intro hfl
        have := hfl.2
        rw [hcs.1] at this
        simp at this
      have nm : ¬ (ModifyAlert zeroTime lib c uuid p).failedLocally := by
        intro hfl
        have := hfl.2
        rw [hms.1] at this
        simp at this
      refine ⟨hv, ⟨fun h => absurd h nc, fun h => absurd h nm⟩, Or.inr ⟨hcs.1, ?_⟩⟩
      rw [hv]
      exact hms.1

/-- C10, as the code has it: with `RHSType` other than `"constant"` the form
values built by `CreateAlert` and `ModifyAlert`, which are the values of every
request they hand to the executor, never hold `rhs_constant`; they hold
`rhs_exchange`, `rhs_tradingsymbol` and `rhs_attribute`, copied from the
parameters, when `RHSType = "instrument"`, and none of the three for any other
value; unless marshaling the basket fails, exactly one request is handed
over. -/
theorem C10_rhs_type_not_constant {Time : Type} (zeroTime : Time) (lib : StdLib)
    (c : Client) (uuid : String) (p : AlertParams) (h : p.RHSType ≠ "constant") :
    ∀ o ∈ [CreateAlert zeroTime lib c p, ModifyAlert zeroTime lib c uuid p],
      (∀ r ∈ o.calls, r.params = o.values) ∧
      (¬ marshalFails lib p → ∃ r, o.calls = [r]) ∧
      o.values.Has "rhs_constant" = false ∧
      (p.RHSType = "instrument" →
        o.values.lookup "rhs_exchange" = some [p.RHSExchange] ∧
        o.values.lookup "rhs_tradingsymbol" = some [p.RHSTradingSymbol] ∧
        o.values.lookup "rhs_attribute" = some [p.RHSAttribute]) ∧
      (p.RHSType ≠ "instrument" →
        o.values.Has "rhs_exchange" = false ∧
        o.values.Has "rhs_tradingsymbol" = false ∧
        o.values.Has "rhs_attribute" = false) := by
  have key : ∀ (o : Outcome (Alert Time)) (method uri : String),
      endsAsBuilt o lib c p method uri (Alert.zero zeroTime) →
      (∀ r ∈ o.calls, r.params = o.values) ∧
      (¬ marshalFails lib p → ∃ r, o.calls = [r]) ∧
      o.values.Has "rhs_constant" = false ∧
      (p.RHSType = "instrument" →
        o.values.lookup "rhs_exchange" = some [p.RHSExchange] ∧
        o.values.lookup "rhs_tradingsymbol" = some [p.RHSTradingSymbol] ∧
        o.values.lookup "rhs_attribute" = some [p.RHSAttribute]) ∧
      (p.RHSType ≠ "instrument" →
        o.values.Has "rhs_exchange" = false ∧
        o.values.Has "rhs_tradingsymbol" = false ∧
        o.values.Has "rhs_attribute" = false) := by
    intro o method uri e
    refine ⟨(endsAsBuilt_calls e).1, fun hn => ⟨_, ((endsAsBuilt_calls e).2 hn).1⟩,
      ?_, ?_, ?_⟩
    · unfold Values.Has
      rw [endsAsBuilt_lookup e _ (by decide)]
      by_cases hi : p.RHSType = "instrument"
      · rw [(scalarValues_instrument lib p hi).1]; rfl
      · rw [(scalarValues_other lib p h hi).1]; rfl
    · intro hi
      obtain ⟨_, h2, h3, h4⟩ := scalarValues_instrument lib p hi
      exact ⟨by rw [endsAsBuilt_lookup e _ (by decide), h2],
        by rw [endsAsBuilt_lookup e _ (by decide), h3],
        by rw [endsAsBuilt_lookup e _ (by decide), h4]⟩
    · intro hi
      obtain ⟨_, h2, h3, h4⟩ := scalarValues_other lib p h hi
      unfold Values.Has
      exact ⟨by rw [endsAsBuilt_lookup e _ (by decide), h2]; rfl,
        by rw [endsAsBuilt_lookup e _ (by decide), h3]; rfl,
        by rw [endsAsBuilt_lookup e _ (by decide), h4]; rfl⟩
  intro o ho
  simp only [List.mem_cons, List.mem_singleton, List.not_mem_nil, or_false] at ho
  rcases ho with rfl | rfl
  · exact key _ _ _ (CreateAlert_ends zeroTime lib c p)
  · exact key _ _ _ (ModifyAlert_ends zeroTime lib c uuid p)

/-- Witness of C10, as the code has it, at an alert whose `RHSType` is the empty
string. -/
theorem C10_rhs_type_not_constant_witness :
    emptyRHSTypeParams.RHSType ≠ "constant" ∧ emptyRHSTypeParams.RHSType ≠ "instrument" ∧
    (CreateAlert () sampleLib okClient emptyRHSTypeParams).values.Has "rhs_constant" = false ∧
    (CreateAlert () sampleLib okClient emptyRHSTypeParams).values.Has "rhs_exchange" = false :=
  have h := C10_rhs_type_not_constant () sampleLib okClient testUUID emptyRHSTypeParams
    (by decide) (CreateAlert () sampleLib okClient emptyRHSTypeParams) (by simp)
  ⟨by decide, by decide, h.2.2.1, (h.2.2.2.2 (by decide)).1⟩

/-- Counterexample to C10 as stated: with `RHSType = ""` and the three
instrument fields filled in, the request of `CreateAlert` holds none of
`rhs_exchange`, `rhs_tradingsymbol`, `rhs_attribute`. -/
theorem C10_counterexample :
    emptyRHSTypeParams.RHSType ≠ "constant" ∧
    emptyRHSTypeParams.RHSExchange = "NSE" ∧
    (CreateAlert () sampleLib okClient emptyRHSTypeParams).calls =
      [⟨"POST", "/alerts",
        [("name", ["NIFTY 50"]), ("type", ["simple"]), ("lhs_exchange", ["INDICES"]),
         ("lhs_tradingsymbol", ["NIFTY 50"]), ("lhs_attribute", ["LastTradedPrice"]),
         ("operator", [">="]), ("rhs_type", [""])],
        none⟩] ∧
    (CreateAlert () sampleLib okClient emptyRHSTypeParams).values.Has "rhs_exchange"
      = false := by
  refine ⟨by decide, rfl, ?_, ?_⟩ <;> decide

end Kiteconnect
